import Mathlib

/-!
Verification of the GalaxyParlay statistical prediction engine.

This file gives a shallow embedding, in Lean 4, of the prediction-engine
modules of the repository (`apps/worker/app/ml/`): the backtest outcome
grader, the Elo recent-form adjustment, the Kelly-criterion bet sizer, the
smart-parlay correlation validator, the value-bet screener, the Dixon-Coles
score model, and the multi-market BTTS predictor.  Python floats are
modelled by `ℚ` where the code is purely rational and by `ℝ` where it uses
`exp`/`log`; dictionaries with a `.get(key, default)` access pattern are
modelled by total functions or association lists, as noted at each
definition.  Theorems named `C1_…` … `C10_…` settle the corresponding
specification claims.
-/

namespace GalaxyParlay

/-! ## Python-style rounding

`round(x, n)` in Python rounds to `n` decimal places with ties going to the
nearest even digit (banker's rounding).  `roundHalfEven` is the integer
core; `round4`/`round2` scale it.  The definitions are generic so that the
same code serves the `ℚ`-valued and the `ℝ`-valued parts of the embedding.
-/

variable {α : Type} [LinearOrderedField α] [FloorRing α]

/-- Round to the nearest integer, ties to even (Python `round(x)`). -/
def roundHalfEven [DecidableRel ((· < ·) : α → α → Prop)] (x : α) : ℤ :=
  if x - (⌊x⌋ : α) < 1/2 then ⌊x⌋
  else if 1/2 < x - (⌊x⌋ : α) then ⌊x⌋ + 1
  else if 2 ∣ ⌊x⌋ then ⌊x⌋ else ⌊x⌋ + 1

/-- Python `round(x, 4)`. -/
def round4 [DecidableRel ((· < ·) : α → α → Prop)] (x : α) : α :=
  (roundHalfEven (x * 10000) : α) / 10000

/-- Python `round(x, 2)`. -/
def round2 [DecidableRel ((· < ·) : α → α → Prop)] (x : α) : α :=
  (roundHalfEven (x * 100) : α) / 100

section RoundLemmas
variable [DecidableRel ((· < ·) : α → α → Prop)]

theorem roundHalfEven_le_add_one (x : α) : roundHalfEven x ≤ ⌊x⌋ + 1 := by
  unfold roundHalfEven
  split
  · exact le_of_lt (lt_add_one _)
  · split
    · exact le_refl _
    · split
      · exact le_of_lt (lt_add_one _)
      · exact le_refl _

theorem le_roundHalfEven (x : α) : ⌊x⌋ ≤ roundHalfEven x := by
  unfold roundHalfEven
  split
  · exact le_refl _
  · split
    · exact le_of_lt (lt_add_one _)
    · split
      · exact le_refl _
      · exact le_of_lt (lt_add_one _)

theorem roundHalfEven_mono {x y : α} (h : x ≤ y) :
    roundHalfEven x ≤ roundHalfEven y := by
  rcases lt_or_eq_of_le (Int.floor_le_floor h) with hf | hf
  · calc roundHalfEven x ≤ ⌊x⌋ + 1 := roundHalfEven_le_add_one x
      _ ≤ ⌊y⌋ := by omega
      _ ≤ roundHalfEven y := le_roundHalfEven y
  · by_cases hx : x - (⌊x⌋ : α) < 1/2
    · have hrx : roundHalfEven x = ⌊x⌋ := by
        unfold roundHalfEven; rw [if_pos hx]
      rw [hrx, hf]; exact le_roundHalfEven y
    · by_cases hy2 : 1/2 < y - (⌊y⌋ : α)
      · have hy : ¬ (y - (⌊y⌋ : α) < 1/2) := by linarith
        have hry : roundHalfEven y = ⌊y⌋ + 1 := by
          unfold roundHalfEven; rw [if_neg hy, if_pos hy2]
        rw [hry, ← hf]; exact roundHalfEven_le_add_one x
      · have hxy : x = y := by
          push_neg at hx hy2
          have hcast : ((⌊x⌋ : α)) = ((⌊y⌋ : α)) := by rw [hf]
          linarith
        rw [hxy]

theorem roundHalfEven_sub_le (x : α) : (roundHalfEven x : α) - x ≤ 1/2 := by
  have hfl := Int.sub_one_lt_floor x
  have hfl2 := Int.floor_le x
  unfold roundHalfEven
  split
  · linarith
  · rename_i h1
    push_neg at h1
    split
    · push_cast; linarith
    · rename_i h2
      push_neg at h2
      split
      · linarith
      · push_cast; linarith

theorem sub_roundHalfEven_le (x : α) : x - (roundHalfEven x : α) ≤ 1/2 := by
  have hfl := Int.lt_floor_add_one x
  have hfl2 := Int.floor_le x
  unfold roundHalfEven
  split
  · rename_i h1; linarith
  · rename_i h1
    push_neg at h1
    split
    · push_cast; linarith
    · split
      · linarith
      · push_cast; linarith

theorem round4_mono {x y : α} (h : x ≤ y) : round4 x ≤ round4 y := by
  unfold round4
  have : roundHalfEven (x * 10000) ≤ roundHalfEven (y * 10000) :=
    roundHalfEven_mono (by nlinarith)
  have h2 : ((roundHalfEven (x * 10000) : ℤ) : α) ≤ ((roundHalfEven (y * 10000) : ℤ) : α) := by
    exact_mod_cast this
  linarith

theorem round2_mono {x y : α} (h : x ≤ y) : round2 x ≤ round2 y := by
  unfold round2
  have : roundHalfEven (x * 100) ≤ roundHalfEven (y * 100) :=
    roundHalfEven_mono (by nlinarith)
  have h2 : ((roundHalfEven (x * 100) : ℤ) : α) ≤ ((roundHalfEven (y * 100) : ℤ) : α) := by
    exact_mod_cast this
  linarith

theorem round4_sub_le (x : α) : round4 x - x ≤ 1/20000 := by
  unfold round4
  have := roundHalfEven_sub_le (x * 10000)
  nlinarith

theorem sub_round4_le (x : α) : x - round4 x ≤ 1/20000 := by
  unfold round4
  have := sub_roundHalfEven_le (x * 10000)
  nlinarith

/-- `round4` of an integer multiple of `1/10000` is itself. -/
theorem round4_int_div (n : ℤ) : round4 ((n : α) / 10000) = (n : α) / 10000 := by
  unfold round4
  have hx : ((n : α) / 10000) * 10000 = (n : α) := by ring
  rw [hx]
  unfold roundHalfEven
  have hfl : ⌊(n : α)⌋ = n := Int.floor_intCast n
  simp [hfl]

end RoundLemmas

/-! ## String and list helpers shared by several modules -/

/-- Python substring test `needle in haystack`. -/
def strContains (haystack needle : String) : Bool :=
  decide (needle.data <:+: haystack.data)

/-- Python slice `l[-n:]`. -/
def takeLast {β : Type} (n : ℕ) (l : List β) : List β :=
  l.drop (l.length - n)

theorem takeLast_ne_nil {β : Type} (n : ℕ) (l : List β) (hl : l ≠ []) :
    takeLast (n + 1) l ≠ [] := by
  unfold takeLast
  intro hcon
  have hlen := congrArg List.length hcon
  rw [List.length_drop] at hlen
  simp at hlen
  have : 0 < l.length := List.length_pos.mpr hl
  omega

/-! ## Backtest outcome grader (`run_backtest.py`, `get_actual_outcome`)

`BacktestRunner.get_actual_outcome(fixture, market_key, outcome)` reads the
fixture's final score and grades whether the given outcome of the given
market occurred (`1.0`/`0.0`), returning `None` for missing scores and for
unsupported markets.  The fixture argument is represented by its two
(optional) scores, the only fields the function reads.
-/

/-- `BacktestRunner.get_actual_outcome`. -/
def getActualOutcome (homeScore awayScore : Option ℤ)
    (marketKey outcome : String) : Option ℚ :=
  match homeScore, awayScore with
  | some hg, some ag =>
    if marketKey = "match_winner" then
      if outcome = "home_win" then some (if hg > ag then 1 else 0)
      else if outcome = "draw" then some (if hg = ag then 1 else 0)
      else if outcome = "away_win" then some (if ag > hg then 1 else 0)
      else none
    else if marketKey = "btts" then
      if outcome = "yes" then some (if hg > 0 ∧ ag > 0 then 1 else 0)
      else if outcome = "no" then some (if ¬(hg > 0 ∧ ag > 0) then 1 else 0)
      else none
    else if strContains marketKey "over_under" then
      match (if strContains marketKey "0_5" then some ((1 : ℚ)/2)
        else if strContains marketKey "1_5" then some (3/2)
        else if strContains marketKey "2_5" then some (5/2)
        else if strContains marketKey "3_5" then some (7/2)
        else if strContains marketKey "4_5" then some (9/2)
        else none) with
      | none => none
      | some threshold =>
        if outcome = "over" then
          some (if ((hg + ag : ℤ) : ℚ) > threshold then 1 else 0)
        else if outcome = "under" then
          some (if ((hg + ag : ℤ) : ℚ) < threshold then 1 else 0)
        else none
    else none
  | _, _ => none

/-! ## Elo recent-form adjustment (`elo.py`)

`EloRatingSystem._calculate_recent_form_adjustment(team_id, lookback=5)`
reads the team's stored rolling result list (at most the last 10 results,
chronological, each `1.0`/`0.5`/`0.0`), keeps the last `lookback` of them
(default **5**), weights them most-recent-first with decay factor `0.8`,
and maps the weighted average linearly onto `[-50, +50]`.  The stored list
is represented by its result values (the timestamps are never read).
-/

/-- `EloRatingSystem._calculate_recent_form_adjustment` (default lookback 5).
The leading emptiness test covers both `team_id not in self.recent_results`
and an empty stored list. -/
def recentFormAdjust (results : List ℚ) (lookback : ℕ := 5) : ℚ :=
  if results.isEmpty then 0
  else
    let r := takeLast lookback results
    if r.isEmpty then 0
    else
      let weightedSum := (r.reverse.enum.map (fun p => p.2 * (4/5) ^ p.1)).sum
      let totalWeight := (r.reverse.enum.map (fun p => ((4:ℚ)/5) ^ p.1)).sum
      let avgResult := if 0 < totalWeight then weightedSum / totalWeight else 1/2
      (avgResult - 1/2) * 100

/-- Modelled from the spec: "an exponentially-decayed (decay factor 0.8 per
match, most recent first, last ≤10 results) average of match outcomes
mapped to [-50,+50]" — the decayed average over the last `lookback` stored
results, then `(avg - 0.5) * 100`. -/
def specRecentForm (lookback : ℕ) (results : List ℚ) : ℚ :=
  let recentFirst := (takeLast lookback results).reverse
  if recentFirst.isEmpty then 0
  else
    let num := (recentFirst.enum.map (fun p => (4/5 : ℚ) ^ p.1 * p.2)).sum
    let den := (recentFirst.enum.map (fun p => ((4:ℚ)/5) ^ p.1)).sum
    (num / den - 1/2) * 100

/-- **C9, counterexample.**  The claim asserts that for a 2-1 fixture
`get_actual_outcome("both_teams_score", "yes")` returns true (`1.0`); the
code only recognises the market key `"btts"`, so `"both_teams_score"` falls
through every branch and yields `None`. -/
theorem C9_counterexample :
    getActualOutcome (some 2) (some 1) "both_teams_score" "yes" ≠ some 1 := by
  norm_num +decide [getActualOutcome, strContains]

/-- **C9, amended.**  For a fixture with `home_score = 2`, `away_score = 1`:
`get_actual_outcome("match_winner", "home_win")` and
`get_actual_outcome("over_under_2_5", "over")` return true (`1.0`) as
claimed, and the both-teams-score check returns true under its actual
market key `"btts"`; under the key `"both_teams_score"` the function
returns `None`. -/
theorem C9_amended :
    getActualOutcome (some 2) (some 1) "match_winner" "home_win" = some 1 ∧
    getActualOutcome (some 2) (some 1) "over_under_2_5" "over" = some 1 ∧
    getActualOutcome (some 2) (some 1) "btts" "yes" = some 1 ∧
    getActualOutcome (some 2) (some 1) "both_teams_score" "yes" = none := by
  refine ⟨?_, ?_, ?_, ?_⟩ <;> norm_num +decide [getActualOutcome, strContains]

/-- **C6, counterexample.**  The claim asserts that the recent-form
adjustment is the decayed average over the team's stored last ≤10 results;
the code (`_calculate_recent_form_adjustment`, default `lookback = 5`) only
uses the last 5.  With stored results `[0, 1, 1, 1, 1, 1]` (oldest first)
the code averages five wins and returns `+50`, while the spec's ≤10-result
formula also sees the oldest loss and returns a strictly smaller value. -/
theorem C6_counterexample :
    recentFormAdjust [0, 1, 1, 1, 1, 1] ≠ specRecentForm 10 [0, 1, 1, 1, 1, 1] := by
  norm_num [recentFormAdjust, specRecentForm, takeLast, List.enum, List.enumFrom]

theorem pow_list_sum_pos (l : List (ℕ × ℚ)) (hl : l ≠ []) :
    0 < (l.map (fun p => ((4:ℚ)/5) ^ p.1)).sum := by
  apply List.sum_pos
  · intro x hx
    obtain ⟨p, _, rfl⟩ := List.mem_map.mp hx
    positivity
  · simpa using hl

/-- **C6, amended.**  The recent-form adjustment equals the exponentially
decayed (factor 0.8, most recent first) average of the team's last ≤**5**
stored results — not ≤10 as claimed — mapped linearly onto `[-50, +50]`. -/
theorem C6_amended (results : List ℚ) :
    recentFormAdjust results = specRecentForm 5 results := by
  unfold recentFormAdjust specRecentForm
  by_cases h : results.isEmpty
  · have hnil : results = [] := by simpa using h
    subst hnil
    simp [takeLast]
  · rw [if_neg h]
    have hne : results ≠ [] := by simpa using h
    have hr : takeLast 5 results ≠ [] := takeLast_ne_nil 4 results hne
    have hrev : (takeLast 5 results).reverse ≠ [] := by simpa using hr
    have hrE : (takeLast 5 results).isEmpty = false := by
      simpa [List.isEmpty_iff] using hr
    have hrevE : ((takeLast 5 results).reverse).isEmpty = false := by
      simpa [List.isEmpty_iff] using hrev
    have henum : (takeLast 5 results).reverse.enum ≠ [] := by
      intro hc
      have hlen := congrArg List.length hc
      simp [List.enum_length] at hlen
      exact hr hlen
    have hden := pow_list_sum_pos _ henum
    simp only [hrE, hrevE, Bool.false_eq_true, if_false]
    rw [if_pos hden]
    have hmap : (takeLast 5 results).reverse.enum.map (fun p => p.2 * (4/5) ^ p.1)
        = (takeLast 5 results).reverse.enum.map (fun p => (4/5 : ℚ) ^ p.1 * p.2) := by
      apply List.map_congr_left
      intro a _
      ring
    rw [hmap]

/-! ## Kelly-criterion bet sizer (`kelly.py`)

`KellyCriterion.calculate(model_probability, decimal_odds, confidence_score)`
computes the full Kelly fraction `(b·p − q)/b` with `b = odds − 1`,
`q = 1 − p`, rejects out-of-domain or low-edge inputs via
`_no_bet_result`, otherwise caps the fraction at `max_kelly`, scales it by
the confidence multiplier `0.5 + 0.5·confidence`, and reports half- and
quarter-Kelly.  The human-readable `recommendation` string is pure
formatting and is not modelled; every numeric field and flag is.
-/

structure KellyResult where
  kelly_fraction : ℚ
  half_kelly : ℚ
  quarter_kelly : ℚ
  edge : ℚ
  expected_value : ℚ
  is_value_bet : Bool
  confidence : String
  deriving DecidableEq

/-- `KellyCriterion.__init__` defaults. -/
structure KellyConfig where
  max_kelly : ℚ := 1/4
  min_edge : ℚ := 2/100
  min_probability : ℚ := 1/10
  max_probability : ℚ := 95/100

/-- `KellyCriterion._no_bet_result` (the reason string is presentation). -/
def noBetResult (edge : ℚ := 0) : KellyResult :=
  ⟨0, 0, 0, round4 edge, 0, false, "none"⟩

/-- The full Kelly formula `f* = (b·p − q)/b` from `calculate`. -/
def kellyRawFraction (p o : ℚ) : ℚ := ((o - 1) * p - (1 - p)) / (o - 1)

/-- `KellyCriterion.calculate`.  The source's local variables
(`implied_probability`, `edge`, `b`, `q`, `kelly_fraction`,
`confidence_multiplier`, `adjusted_kelly`) are inlined: `edge = p - 1/o`,
the capped fraction is `min (kellyRawFraction p o) cfg.max_kelly`, and the
adjusted fraction multiplies it by `1/2 + conf/2`. -/
def kellyCalculate (cfg : KellyConfig) (p o conf : ℚ) : KellyResult :=
  if p ≤ 0 ∨ 1 ≤ p then noBetResult
  else if o ≤ 1 then noBetResult
  else if kellyRawFraction p o ≤ 0 then noBetResult (p - 1/o)
  else if p - 1/o < cfg.min_edge then noBetResult (p - 1/o)
  else if p < cfg.min_probability then noBetResult
  else if cfg.max_probability < p then noBetResult
  else
    ⟨round4 (min (kellyRawFraction p o) cfg.max_kelly * (1/2 + conf * (1/2))),
     round4 (min (kellyRawFraction p o) cfg.max_kelly * (1/2 + conf * (1/2)) * (1/2)),
     round4 (min (kellyRawFraction p o) cfg.max_kelly * (1/2 + conf * (1/2)) * (1/4)),
     round4 (p - 1/o),
     round4 (p * (o - 1) - (1 - p)),
     decide (cfg.min_edge ≤ p - 1/o ∧ 0 < kellyRawFraction p o),
     if 8/10 ≤ conf ∧ 1/10 ≤ p - 1/o then "high"
     else if 6/10 ≤ conf ∧ 5/100 ≤ p - 1/o then "medium" else "low"⟩

/-- **C4, confirmed.**  `KellyCriterion.calculate` returns the "no bet"
result (all Kelly fractions 0, `is_value_bet = False`) iff the model
probability is outside `(0,1)`, the odds are ≤ 1, the edge `p − 1/o` is
below the default minimum `0.02`, the raw Kelly fraction `(b·p − q)/b` is
≤ 0, the probability is below `0.10`, or it is above `0.95`; and with the
edge exactly at the minimum threshold and every other condition satisfied
(probability in bounds, odds > 1, a confidence score in its documented
`0–1` range) it returns a value bet with strictly positive full, half and
quarter Kelly recommendations. -/
theorem C4_noBet_iff_and_boundary (p o conf : ℚ) :
    (((kellyCalculate {} p o conf).kelly_fraction = 0 ∧
      (kellyCalculate {} p o conf).half_kelly = 0 ∧
      (kellyCalculate {} p o conf).quarter_kelly = 0 ∧
      (kellyCalculate {} p o conf).is_value_bet = false) ↔
     (p ≤ 0 ∨ 1 ≤ p ∨ o ≤ 1 ∨ p - 1/o < 2/100 ∨
      kellyRawFraction p o ≤ 0 ∨ p < 1/10 ∨ 95/100 < p)) ∧
    (0 < p → p < 1 → 1 < o → p - 1/o = 2/100 → 1/10 ≤ p → p ≤ 95/100 →
      0 ≤ conf →
      (kellyCalculate {} p o conf).is_value_bet = true ∧
      0 < (kellyCalculate {} p o conf).kelly_fraction ∧
      0 < (kellyCalculate {} p o conf).half_kelly ∧
      0 < (kellyCalculate {} p o conf).quarter_kelly) := by
  constructor
  · unfold kellyCalculate
    by_cases h1 : p ≤ 0 ∨ 1 ≤ p
    · rw [if_pos h1]
      rcases h1 with ha | hb
      · exact iff_of_true ⟨rfl, rfl, rfl, rfl⟩ (Or.inl ha)
      · exact iff_of_true ⟨rfl, rfl, rfl, rfl⟩ (Or.inr (Or.inl hb))
    rw [if_neg h1]
    by_cases h2 : o ≤ 1
    · rw [if_pos h2]
      exact iff_of_true ⟨rfl, rfl, rfl, rfl⟩ (Or.inr (Or.inr (Or.inl h2)))
    rw [if_neg h2]
    by_cases h3 : kellyRawFraction p o ≤ 0
    · rw [if_pos h3]
      exact iff_of_true ⟨rfl, rfl, rfl, rfl⟩
        (Or.inr (Or.inr (Or.inr (Or.inr (Or.inl h3)))))
    rw [if_neg h3]
    by_cases h4 : p - 1/o < ({} : KellyConfig).min_edge
    · rw [if_pos h4]
      exact iff_of_true ⟨rfl, rfl, rfl, rfl⟩ (Or.inr (Or.inr (Or.inr (Or.inl h4))))
    rw [if_neg h4]
    by_cases h5 : p < ({} : KellyConfig).min_probability
    · rw [if_pos h5]
      exact iff_of_true ⟨rfl, rfl, rfl, rfl⟩
        (Or.inr (Or.inr (Or.inr (Or.inr (Or.inr (Or.inl h5))))))
    rw [if_neg h5]
    by_cases h6 : ({} : KellyConfig).max_probability < p
    · rw [if_pos h6]
      exact iff_of_true ⟨rfl, rfl, rfl, rfl⟩
        (Or.inr (Or.inr (Or.inr (Or.inr (Or.inr (Or.inr h6))))))
    rw [if_neg h6]
    apply iff_of_false
    · intro hcon
      have hvbf := hcon.2.2.2
      simp only [decide_eq_false_iff_not] at hvbf
      push_neg at h3 h4
      exact hvbf ⟨h4, h3⟩
    · intro hcon
      push_neg at h1
      rcases hcon with h | h | h | h | h | h | h
      exacts [absurd h (not_le.mpr h1.1), absurd h (not_le.mpr h1.2),
        h2 h, h4 h, h3 h, h5 h, h6 h]
  · intro hp0 hp1 ho hedge hpmin hpmax hconf
    have hb : 0 < o - 1 := by linarith
    have hraw : kellyRawFraction p o = (p - 1/o) * o / (o - 1) := by
      unfold kellyRawFraction
      field_simp
      ring
    have hrawpos : 1/50 < kellyRawFraction p o := by
      rw [hraw, hedge]
      rw [div_lt_div_iff₀ (by norm_num) hb] at *
      nlinarith
    have hcap : 1/50 ≤ min (kellyRawFraction p o) (1/4 : ℚ) := by
      rcases min_le_iff.mp (le_refl (min (kellyRawFraction p o) (1/4 : ℚ))) with _ | _
      all_goals
        rcases le_total (kellyRawFraction p o) (1/4 : ℚ) with hm | hm
        · rw [min_eq_left hm]
          linarith
        · rw [min_eq_right hm]
          norm_num
    have hmult : (1/2 : ℚ) ≤ 1/2 + conf * (1/2) := by linarith
    have hadj : (1/100 : ℚ) ≤ min (kellyRawFraction p o) (1/4 : ℚ) * (1/2 + conf * (1/2)) := by
      nlinarith
    unfold kellyCalculate
    rw [if_neg (by push_neg; constructor <;> linarith),
        if_neg (by linarith),
        if_neg (by linarith),
        if_neg (by rw [hedge]; simp),
        if_neg (by linarith),
        if_neg (by push_neg; linarith)]
    refine ⟨?_, ?_, ?_, ?_⟩
    · simp only [decide_eq_true_eq]
      exact ⟨by rw [hedge], by linarith⟩
    · have : round4 ((100 : ℤ) / 10000 : ℚ) ≤ round4 (min (kellyRawFraction p o) (1/4 : ℚ) * (1/2 + conf * (1/2))) :=
        round4_mono (by push_cast; linarith)
      rw [round4_int_div] at this
      calc (0:ℚ) < ((100 : ℤ) : ℚ) / 10000 := by norm_num
        _ ≤ _ := this
    · have : round4 ((50 : ℤ) / 10000 : ℚ) ≤ round4 (min (kellyRawFraction p o) (1/4 : ℚ) * (1/2 + conf * (1/2)) * (1/2)) :=
        round4_mono (by push_cast; nlinarith)
      rw [round4_int_div] at this
      calc (0:ℚ) < ((50 : ℤ) : ℚ) / 10000 := by norm_num
        _ ≤ _ := this
    · have : round4 ((25 : ℤ) / 10000 : ℚ) ≤ round4 (min (kellyRawFraction p o) (1/4 : ℚ) * (1/2 + conf * (1/2)) * (1/4)) :=
        round4_mono (by push_cast; nlinarith)
      rw [round4_int_div] at this
      calc (0:ℚ) < ((25 : ℤ) : ℚ) / 10000 := by norm_num
        _ ≤ _ := this

/-- Witness for C4: model probability `0.52` against decimal odds `2.00`
has edge exactly `0.02`; with confidence `0.7` the sizer returns a strictly
positive recommendation. -/
theorem C4_witness :
    (kellyCalculate {} (52/100) 2 (7/10)).is_value_bet = true ∧
    0 < (kellyCalculate {} (52/100) 2 (7/10)).kelly_fraction ∧
    0 < (kellyCalculate {} (52/100) 2 (7/10)).half_kelly ∧
    0 < (kellyCalculate {} (52/100) 2 (7/10)).quarter_kelly :=
  (C4_noBet_iff_and_boundary (52/100) 2 (7/10)).2 (by norm_num) (by norm_num)
    (by norm_num) (by norm_num) (by norm_num) (by norm_num) (by norm_num)

/-! ## Smart-parlay correlation validator (`smart_parlay.py`, `league_config.py`)

`SmartParlayValidator.validate_parlay(selections)` groups the legs by
fixture, then scans every same-fixture market pair in order; the first
pair whose correlation exceeds a threshold decides the outcome: above the
high threshold `0.70` the whole combination is rejected, above the
moderate threshold `0.30` it is accepted with the odds-penalty multiplier
`0.95`, otherwise the scan continues.  The user-facing message strings are
modelled structurally by `ParlayVerdict`.
-/

/-- `HIGH_CORRELATION_PAIRS` from `league_config.py`. -/
def highCorrelationPairs : List ((String × String) × ℚ) :=
  [(("over_under_2_5_over", "over_under_3_5_over"), 681/1000),
   (("over_under_2_5_over", "over_under_1_5_over"), 580/1000),
   (("over_under_2_5_under", "over_under_3_5_under"), 681/1000),
   (("over_under_2_5_under", "over_under_1_5_under"), 580/1000),
   (("over_under_2_5_over", "over_under_2_5_under"), -1),
   (("over_under_1_5_over", "over_under_1_5_under"), -1),
   (("over_under_3_5_over", "over_under_3_5_under"), -1),
   (("match_winner_home_win", "match_winner_draw"), -516/1000),
   (("match_winner_home_win", "match_winner_away_win"), -563/1000),
   (("match_winner_draw", "match_winner_away_win"), -418/1000)]

/-- Python `market.rsplit("_", 1)[0]`: everything before the last
underscore (the whole string when there is none). -/
def rsplitHead (s : String) : String :=
  if (s.splitOn "_").length ≤ 1 then s
  else String.intercalate "_" (s.splitOn "_").dropLast

/-- `SmartParlayValidator._estimate_correlation`. -/
def estimateCorrelation (market1 market2 : String) : ℚ :=
  if rsplitHead market1 = rsplitHead market2 ∧ market1 ≠ market2 then -1
  else if strContains market1 "over_under" ∧ strContains market2 "over_under" then 6/10
  else if strContains market1 "match_winner" ∧ strContains market2 "over_under" then 5/100
  else if strContains market2 "match_winner" ∧ strContains market1 "over_under" then 5/100
  else if strContains market1 "match_winner" ∧ strContains market2 "match_winner" then -(5/10)
  else 15/100

/-- `SmartParlayValidator._get_correlation`: both orderings are looked up
in the known-pairs table before falling back to the heuristic estimate. -/
def getCorrelation (market1 market2 : String) : ℚ :=
  match (highCorrelationPairs.find? (fun e => e.1 == (market1, market2))) with
  | some e => e.2
  | none =>
    match (highCorrelationPairs.find? (fun e => e.1 == (market2, market1))) with
    | some e => e.2
    | none => estimateCorrelation market1 market2

/-- A parlay leg: `fixture_id`, `market_key`, `odds`. -/
structure Selection where
  fixture_id : ℤ
  market_key : String
  odds : ℚ
  deriving DecidableEq

/-- Append a market to its fixture's group, preserving first-appearance
order of fixtures (Python dicts iterate in insertion order). -/
def addToGroups : List (ℤ × List String) → ℤ → String → List (ℤ × List String)
  | [], fid, mk_ => [(fid, [mk_])]
  | (f, ms) :: rest, fid, mk_ =>
    if f = fid then (f, ms ++ [mk_]) :: rest
    else (f, ms) :: addToGroups rest fid mk_

/-- `SmartParlayValidator._get_same_fixture_markets`: selections with a
falsy (`0`) fixture id or empty market key are skipped, the rest are
grouped by fixture id. -/
def sameFixtureMarkets (selections : List Selection) : List (ℤ × List String) :=
  selections.foldl
    (fun acc s =>
      if s.fixture_id ≠ 0 ∧ s.market_key ≠ "" then
        addToGroups acc s.fixture_id s.market_key
      else acc)
    []

/-- Structural rendering of `validate_parlay`'s reason strings. -/
inductive ParlayVerdict where
  | singleSelection
  | rejectedHighCorrelation (market1 market2 : String) (corr : ℚ)
  | moderateWarning (market1 market2 : String) (corr : ℚ)
  | validCombination
  deriving DecidableEq

structure ParlayResult where
  is_valid : Bool
  verdict : ParlayVerdict
  odds_penalty : ℚ
  deriving DecidableEq

/-- One pair check from the inner loop of `validate_parlay`: reject above
the high threshold `0.70`, warn with penalty `0.95` above the moderate
threshold `0.30` (`SMART_PARLAY_CONFIG`), otherwise keep scanning. -/
def checkPair (market1 market2 : String) : Option ParlayResult :=
  if 7/10 < |getCorrelation market1 market2| then
    some ⟨false, .rejectedHighCorrelation market1 market2 (getCorrelation market1 market2), 1⟩
  else if 3/10 < |getCorrelation market1 market2| then
    some ⟨true, .moderateWarning market1 market2 (getCorrelation market1 market2), 95/100⟩
  else none

/-- Scan the pairs `(market1, m)` for `m` in the tail, in order. -/
def scanPairsFrom (market1 : String) : List String → Option ParlayResult
  | [] => none
  | m :: rest =>
    match checkPair market1 m with
    | some r => some r
    | none => scanPairsFrom market1 rest

/-- Scan all pairs `markets[i], markets[j]` with `i < j`, in order. -/
def scanMarkets : List String → Option ParlayResult
  | [] => none
  | m :: rest =>
    match scanPairsFrom m rest with
    | some r => some r
    | none => scanMarkets rest

/-- Scan each fixture's group (a group with fewer than two markets is
skipped, as in the source). -/
def scanGroups : List (ℤ × List String) → Option ParlayResult
  | [] => none
  | (_, ms) :: rest =>
    if ms.length < 2 then scanGroups rest
    else
      match scanMarkets ms with
      | some r => some r
      | none => scanGroups rest

/-- `SmartParlayValidator.validate_parlay`. -/
def validateParlay (selections : List Selection) : ParlayResult :=
  if selections.length ≤ 1 then ⟨true, .singleSelection, 1⟩
  else
    match scanGroups (sameFixtureMarkets selections) with
    | some r => r
    | none => ⟨true, .validCombination, 1⟩

/-- The same-fixture market pairs in exactly the order `validate_parlay`
examines them. -/
def pairsOf : List String → List (String × String)
  | [] => []
  | m :: rest => rest.map (fun m2 => (m, m2)) ++ pairsOf rest

/-- The pairs scanned across a list of fixture groups, in order. -/
def groupsPairs (gs : List (ℤ × List String)) : List (String × String) :=
  gs.flatMap (fun g => if g.2.length < 2 then [] else pairsOf g.2)

/-- All same-fixture pairs of a selection list, in scan order (groups with
fewer than two markets contribute nothing). -/
def sameFixturePairs (selections : List Selection) : List (String × String) :=
  groupsPairs (sameFixtureMarkets selections)

theorem checkPair_of_high {m1 m2 : String}
    (h : 7/10 < |getCorrelation m1 m2|) :
    ∃ r, checkPair m1 m2 = some r ∧ r.is_valid = false := by
  unfold checkPair
  rw [if_pos h]
  exact ⟨_, rfl, rfl⟩

theorem checkPair_of_low {m1 m2 : String}
    (h : |getCorrelation m1 m2| ≤ 3/10) :
    checkPair m1 m2 = none := by
  unfold checkPair
  rw [if_neg (by push_neg; linarith), if_neg (by push_neg; exact h)]

theorem scanPairsFrom_cases (m1 : String) (rest : List String)
    (hmod : ∀ m2 ∈ rest, ¬(3/10 < |getCorrelation m1 m2| ∧
      |getCorrelation m1 m2| ≤ 7/10)) :
    ((∃ m2 ∈ rest, 7/10 < |getCorrelation m1 m2|) →
      ∃ r, scanPairsFrom m1 rest = some r ∧ r.is_valid = false) ∧
    ((∀ m2 ∈ rest, ¬ 7/10 < |getCorrelation m1 m2|) →
      scanPairsFrom m1 rest = none) := by
  induction rest with
  | nil => exact ⟨fun ⟨_, h, _⟩ => absurd h (List.not_mem_nil _), fun _ => rfl⟩
  | cons m tail ih =>
    have hmodm := hmod m (List.mem_cons_self m tail)
    have hmodtail : ∀ m2 ∈ tail, ¬(3/10 < |getCorrelation m1 m2| ∧
        |getCorrelation m1 m2| ≤ 7/10) :=
      fun m2 hm2 => hmod m2 (List.mem_cons_of_mem m hm2)
    obtain ⟨ihHigh, ihNone⟩ := ih hmodtail
    by_cases hm : 7/10 < |getCorrelation m1 m|
    · obtain ⟨r, hr, hrv⟩ := checkPair_of_high hm
      constructor
      · intro _
        exact ⟨r, by unfold scanPairsFrom; rw [hr], hrv⟩
      · intro hall
        exact absurd hm (hall m (List.mem_cons_self m tail))
    · have hlow : |getCorrelation m1 m| ≤ 3/10 := by
        by_contra hcon
        push_neg at hcon hm
        exact hmodm ⟨hcon, hm⟩
      have hnone := checkPair_of_low hlow
      constructor
      · intro ⟨m2, hm2, hhigh⟩
        rcases List.mem_cons.mp hm2 with rfl | hm2t
        · exact absurd hhigh hm
        · obtain ⟨r, hr, hrv⟩ := ihHigh ⟨m2, hm2t, hhigh⟩
          exact ⟨r, by unfold scanPairsFrom; rw [hnone, hr], hrv⟩
      · intro hall
        have := ihNone (fun m2 hm2 => hall m2 (List.mem_cons_of_mem m hm2))
        unfold scanPairsFrom
        rw [hnone, this]

theorem scanMarkets_cases (ms : List String)
    (hmod : ∀ pr ∈ pairsOf ms, ¬(3/10 < |getCorrelation pr.1 pr.2| ∧
      |getCorrelation pr.1 pr.2| ≤ 7/10)) :
    ((∃ pr ∈ pairsOf ms, 7/10 < |getCorrelation pr.1 pr.2|) →
      ∃ r, scanMarkets ms = some r ∧ r.is_valid = false) ∧
    ((∀ pr ∈ pairsOf ms, ¬ 7/10 < |getCorrelation pr.1 pr.2|) →
      scanMarkets ms = none) := by
  induction ms with
  | nil => exact ⟨fun ⟨_, h, _⟩ => absurd h (List.not_mem_nil _), fun _ => rfl⟩
  | cons m tail ih =>
    have hsplit : pairsOf (m :: tail)
        = tail.map (fun m2 => (m, m2)) ++ pairsOf tail := rfl
    have hmodHead : ∀ m2 ∈ tail, ¬(3/10 < |getCorrelation m m2| ∧
        |getCorrelation m m2| ≤ 7/10) := by
      intro m2 hm2
      apply hmod (m, m2)
      rw [hsplit]
      exact List.mem_append_left _ (List.mem_map_of_mem _ hm2)
    have hmodTail : ∀ pr ∈ pairsOf tail, ¬(3/10 < |getCorrelation pr.1 pr.2| ∧
        |getCorrelation pr.1 pr.2| ≤ 7/10) := by
      intro pr hpr
      apply hmod pr
      rw [hsplit]
      exact List.mem_append_right _ hpr
    obtain ⟨headHigh, headNone⟩ := scanPairsFrom_cases m tail hmodHead
    obtain ⟨ihHigh, ihNone⟩ := ih hmodTail
    constructor
    · intro ⟨pr, hpr, hhigh⟩
      rw [hsplit] at hpr
      by_cases hex : ∃ m2 ∈ tail, 7/10 < |getCorrelation m m2|
      · obtain ⟨r, hr, hrv⟩ := headHigh hex
        exact ⟨r, by unfold scanMarkets; rw [hr], hrv⟩
      · push_neg at hex
        have hnone := headNone (fun m2 hm2 => not_lt.mpr (hex m2 hm2))
        have hprT : pr ∈ pairsOf tail := by
          rcases List.mem_append.mp hpr with hL | hR
          · obtain ⟨m2, hm2, rfl⟩ := List.mem_map.mp hL
            exact absurd hhigh (not_lt.mpr (hex m2 hm2))
          · exact hR
        obtain ⟨r, hr, hrv⟩ := ihHigh ⟨pr, hprT, hhigh⟩
        exact ⟨r, by unfold scanMarkets; rw [hnone, hr], hrv⟩
    · intro hall
      have hnone : scanPairsFrom m tail = none := by
        apply headNone
        intro m2 hm2
        apply hall (m, m2)
        rw [hsplit]
        exact List.mem_append_left _ (List.mem_map_of_mem _ hm2)
      have htail : scanMarkets tail = none := by
        apply ihNone
        intro pr hpr
        apply hall pr
        rw [hsplit]
        exact List.mem_append_right _ hpr
      unfold scanMarkets
      rw [hnone, htail]

theorem scanGroups_reject (gs : List (ℤ × List String))
    (hmod : ∀ pr ∈ groupsPairs gs, ¬(3/10 < |getCorrelation pr.1 pr.2| ∧
      |getCorrelation pr.1 pr.2| ≤ 7/10))
    (hhigh : ∃ pr ∈ groupsPairs gs, 7/10 < |getCorrelation pr.1 pr.2|) :
    ∃ r, scanGroups gs = some r ∧ r.is_valid = false := by
  induction gs with
  | nil => exact absurd hhigh (by simp [groupsPairs])
  | cons g rest ih =>
    have hsplit : groupsPairs (g :: rest)
        = (if g.2.length < 2 then [] else pairsOf g.2) ++ groupsPairs rest := by
      simp [groupsPairs]
    rw [hsplit] at hmod hhigh
    by_cases hg : g.2.length < 2
    · rw [if_pos hg] at hmod hhigh
      simp only [List.nil_append] at hmod hhigh
      obtain ⟨r, hr, hrv⟩ := ih hmod hhigh
      refine ⟨r, ?_, hrv⟩
      obtain ⟨f, ms⟩ := g
      unfold scanGroups
      rw [if_pos hg, hr]
    · rw [if_neg hg] at hmod hhigh
      have hmodG : ∀ pr ∈ pairsOf g.2, ¬(3/10 < |getCorrelation pr.1 pr.2| ∧
          |getCorrelation pr.1 pr.2| ≤ 7/10) :=
        fun pr hpr => hmod pr (List.mem_append_left _ hpr)
      have hmodR : ∀ pr ∈ groupsPairs rest, ¬(3/10 < |getCorrelation pr.1 pr.2| ∧
          |getCorrelation pr.1 pr.2| ≤ 7/10) :=
        fun pr hpr => hmod pr (List.mem_append_right _ hpr)
      obtain ⟨gHigh, gNone⟩ := scanMarkets_cases g.2 hmodG
      by_cases hex : ∃ pr ∈ pairsOf g.2, 7/10 < |getCorrelation pr.1 pr.2|
      · obtain ⟨r, hr, hrv⟩ := gHigh hex
        refine ⟨r, ?_, hrv⟩
        obtain ⟨f, ms⟩ := g
        unfold scanGroups
        rw [if_neg hg, hr]
      · push_neg at hex
        have hnone := gNone (fun pr hpr => not_lt.mpr (hex pr hpr))
        have hhighR : ∃ pr ∈ groupsPairs rest, 7/10 < |getCorrelation pr.1 pr.2| := by
          obtain ⟨pr, hpr, hh⟩ := hhigh
          rcases List.mem_append.mp hpr with hL | hR
          · exact absurd hh (not_lt.mpr (hex pr hL))
          · exact ⟨pr, hR, hh⟩
        obtain ⟨r, hr, hrv⟩ := ih hmodR hhighR
        refine ⟨r, ?_, hrv⟩
        obtain ⟨f, ms⟩ := g
        unfold scanGroups
        rw [if_neg hg, hnone, hr]

/-- The counterexample parlay: three same-fixture over/under legs.  The
scan meets the moderately correlated pair (O2.5, O3.5) first and returns
"accept with penalty" before ever examining the perfectly inversely
correlated pair (O2.5 over, O2.5 under). -/
def c1Selections : List Selection :=
  [⟨10, "over_under_2_5_over", 2⟩, ⟨10, "over_under_3_5_over", 2⟩,
   ⟨10, "over_under_2_5_under", 2⟩]

/-- **C1, counterexample.**  `c1Selections` contains two legs on the same
fixture whose market-pair correlation is `-1.0` (absolute value above the
high threshold `0.70`), yet `validate_parlay` accepts the combination
(with the moderate-correlation penalty `0.95`): the moderate branch
returns before the high-correlation pair is ever examined, so rejection
does depend on the order in which pairs are examined. -/
theorem C1_counterexample :
    (⟨10, "over_under_2_5_over", 2⟩ : Selection) ∈ c1Selections ∧
    (⟨10, "over_under_2_5_under", 2⟩ : Selection) ∈ c1Selections ∧
    7/10 < |getCorrelation "over_under_2_5_over" "over_under_2_5_under"| ∧
    (validateParlay c1Selections).is_valid = true ∧
    (validateParlay c1Selections).odds_penalty = 95/100 := by
  refine ⟨by simp [c1Selections], by simp [c1Selections], ?_, ?_, ?_⟩
  · norm_num +decide [getCorrelation, highCorrelationPairs, abs_neg, abs_one]
  · norm_num +decide [validateParlay, c1Selections, sameFixtureMarkets,
      addToGroups, scanGroups, scanMarkets, scanPairsFrom, checkPair,
      getCorrelation, highCorrelationPairs, List.foldl, abs_neg, abs_one,
      show |(681/1000 : ℚ)| = 681/1000 from abs_of_nonneg (by norm_num)]
  · norm_num +decide [validateParlay, c1Selections, sameFixtureMarkets,
      addToGroups, scanGroups, scanMarkets, scanPairsFrom, checkPair,
      getCorrelation, highCorrelationPairs, List.foldl, abs_neg, abs_one,
      show |(681/1000 : ℚ)| = 681/1000 from abs_of_nonneg (by norm_num)]

/-- **C1, amended.**  If some same-fixture pair of a multi-leg combination
has correlation of absolute value above the high threshold `0.70` **and no
same-fixture pair falls in the moderate band `(0.30, 0.70]`**, then
`validate_parlay` rejects the combination.  (When a moderate pair precedes
the high pair in scan order, the code instead accepts with a penalty — see
the counterexample.) -/
theorem C1_amended (selections : List Selection)
    (hlen : 2 ≤ selections.length)
    (hhigh : ∃ pr ∈ sameFixturePairs selections,
      7/10 < |getCorrelation pr.1 pr.2|)
    (hmod : ∀ pr ∈ sameFixturePairs selections,
      ¬(3/10 < |getCorrelation pr.1 pr.2| ∧ |getCorrelation pr.1 pr.2| ≤ 7/10)) :
    (validateParlay selections).is_valid = false := by
  unfold validateParlay
  rw [if_neg (by omega)]
  obtain ⟨r, hr, hrv⟩ := scanGroups_reject (sameFixtureMarkets selections) hmod hhigh
  rw [hr]
  exact hrv

/-- Witness for C1 (amended): two perfectly inversely correlated legs on
one fixture, no moderate pair — the parlay is rejected. -/
theorem C1_witness :
    (validateParlay [⟨1, "over_under_2_5_over", 2⟩,
      ⟨1, "over_under_2_5_under", 2⟩]).is_valid = false := by
  apply C1_amended
  · norm_num
  · refine ⟨("over_under_2_5_over", "over_under_2_5_under"), ?_, ?_⟩
    · norm_num +decide [sameFixturePairs, sameFixtureMarkets, groupsPairs,
        addToGroups, pairsOf, List.foldl]
    · norm_num +decide [getCorrelation, highCorrelationPairs]
  · intro pr hpr
    have : pr = ("over_under_2_5_over", "over_under_2_5_under") := by
      revert hpr
      norm_num +decide [sameFixturePairs, sameFixtureMarkets, groupsPairs,
        addToGroups, pairsOf, List.foldl]
    rw [this]
    norm_num +decide [getCorrelation, highCorrelationPairs]

/-! ## Value-bet screener (`value_bets.py`)

`ValueBetDetector.detect_value_bets(fixtures)` walks each fixture's
predictions, pairs them with the first odds snapshot for the same market
(`odds_by_market` keeps the first snapshot per market; `quality_by_market`
keeps the last quality entry per market), screens each selection through
odds-band, confidence, edge and EV thresholds, scores the survivors with
`calculate_value_score`, and returns them sorted by descending score.
Python dictionaries with uniform `.get(key, default)` access are modelled
as association lists (`dictGet0`) or structures with the defaults applied.
The code's stable `list.sort(key=…, reverse=True)` is modelled with a
stable insertion sort under the descending-score relation `vbLE`.
-/

structure VBPrediction where
  market_key : String
  prediction : List (String × ℚ)
  confidence_score : ℚ
  quality_grade : String
  deriving DecidableEq

structure OddsSnapshot where
  market_key : String
  odds_data : List (String × ℚ)
  bookmaker : String
  deriving DecidableEq

structure QualityEntry where
  market_key : String
  final_grade : String
  deriving DecidableEq

structure VBFixture where
  id : ℤ
  home_team_name : String
  away_team_name : String
  league_id : ℤ
  kickoff_time : String
  predictions : List VBPrediction
  odds : List OddsSnapshot
  quality_scores : List QualityEntry
  deriving DecidableEq

/-- The `ValueBet` dataclass (numeric fields unrounded, as constructed;
`to_dict` rounding is presentation). -/
structure ValueBet where
  fixture_id : ℤ
  home_team : String
  away_team : String
  league_id : ℤ
  kickoff_time : String
  market_key : String
  selection : String
  model_probability : ℚ
  implied_probability : ℚ
  bookmaker_odds : ℚ
  bookmaker : String
  edge : ℚ
  expected_value : ℚ
  kelly_fraction : ℚ
  confidence_score : ℚ
  quality_grade : String
  value_score : ℚ
  deriving DecidableEq

/-- `ValueBetDetector.__init__` defaults (`MIN_EDGE`, `MIN_EV`,
`MIN_CONFIDENCE`). -/
structure ValueBetConfig where
  min_edge : ℚ := 3/100
  min_ev : ℚ := 2/100
  min_confidence : ℚ := 4/10

/-- Python `d.get(key, 0)` on an outcome→number dict. -/
def dictGet0 (l : List (String × ℚ)) (k : String) : ℚ :=
  match l.find? (fun p => p.1 == k) with
  | some p => p.2
  | none => 0

/-- `calculate_implied_probability`. -/
def calculateImpliedProbability (odds : ℚ) : ℚ :=
  if odds ≤ 1 then 1 else 1/odds

/-- `calculate_expected_value`. -/
def calculateExpectedValue (modelProb odds : ℚ) : ℚ :=
  modelProb * (odds - 1) - (1 - modelProb)

/-- `calculate_kelly_fraction` (capped at `MAX_KELLY = 0.10`, floored at 0). -/
def calculateKellyFraction (modelProb odds : ℚ) : ℚ :=
  if odds ≤ 1 then 0
  else max 0 (min ((modelProb * ((odds - 1) + 1) - 1) / (odds - 1)) (1/10))

/-- The grade multiplier lookup in `calculate_value_score` (`.get(grade, 1.0)`). -/
def gradeMultiplier (grade : String) : ℚ :=
  if grade = "A" then 15/10
  else if grade = "B" then 12/10
  else if grade = "C" then 1
  else if grade = "D" then 8/10
  else if grade = "F" then 5/10
  else 1

/-- `ValueBetDetector.calculate_value_score`. -/
def calculateValueScore (edge ev confidence : ℚ) (grade : String) : ℚ :=
  (min (edge / (15/100)) 1 * 40 + min (ev / (20/100)) 1 * 30 + confidence * 30)
    * gradeMultiplier grade

/-- The prediction-key → odds-key mappings of `_analyze_market` (any other
market yields no bets). -/
def marketMappings (marketKey : String) : List (String × String) :=
  if marketKey = "match_winner" then
    [("home_win", "home"), ("draw", "draw"), ("away_win", "away")]
  else if marketKey = "over_under_2.5" then [("over", "over"), ("under", "under")]
  else if marketKey = "both_teams_score" then [("yes", "yes"), ("no", "no")]
  else []

/-- `_get_selection_name`. -/
def selectionName (marketKey selectionKey homeTeam awayTeam : String) : String :=
  if marketKey = "match_winner" then
    if selectionKey = "home_win" then homeTeam ++ " Win"
    else if selectionKey = "away_win" then awayTeam ++ " Win"
    else "Draw"
  else if marketKey = "over_under_2.5" then
    if selectionKey = "over" then "Over 2.5 Goals" else "Under 2.5 Goals"
  else if marketKey = "both_teams_score" then
    if selectionKey = "yes" then "Both Teams Score" else "BTTS No"
  else selectionKey

/-- One iteration of the `for pred_key, odds_key in mappings` loop of
`_analyze_market`: the Python falsy test `if not model_prob or not
bookmaker_odds` skips zero (or missing) values, the odds band
`MIN_ODDS = 1.20 … MAX_ODDS = 10.0` is enforced, and the edge/EV
thresholds decide acceptance. -/
def analyzeSelection (cfg : ValueBetConfig) (fixtureId : ℤ)
    (homeTeam awayTeam : String) (leagueId : ℤ) (kickoffTime marketKey : String)
    (predictionData oddsData : List (String × ℚ)) (bookmaker : String)
    (confidence : ℚ) (qualityGrade : String) (predKey oddsKey : String) :
    Option ValueBet :=
  if dictGet0 predictionData predKey = 0 ∨ dictGet0 oddsData oddsKey = 0 then none
  else if dictGet0 oddsData oddsKey < 12/10 ∨ 10 < dictGet0 oddsData oddsKey then none
  else if cfg.min_edge ≤ dictGet0 predictionData predKey
        - calculateImpliedProbability (dictGet0 oddsData oddsKey) ∧
      cfg.min_ev ≤ calculateExpectedValue (dictGet0 predictionData predKey)
        (dictGet0 oddsData oddsKey) then
    some ⟨fixtureId, homeTeam, awayTeam, leagueId, kickoffTime, marketKey,
      selectionName marketKey predKey homeTeam awayTeam,
      dictGet0 predictionData predKey,
      calculateImpliedProbability (dictGet0 oddsData oddsKey),
      dictGet0 oddsData oddsKey, bookmaker,
      dictGet0 predictionData predKey
        - calculateImpliedProbability (dictGet0 oddsData oddsKey),
      calculateExpectedValue (dictGet0 predictionData predKey)
        (dictGet0 oddsData oddsKey),
      calculateKellyFraction (dictGet0 predictionData predKey)
        (dictGet0 oddsData oddsKey),
      confidence, qualityGrade,
      calculateValueScore
        (dictGet0 predictionData predKey
          - calculateImpliedProbability (dictGet0 oddsData oddsKey))
        (calculateExpectedValue (dictGet0 predictionData predKey)
          (dictGet0 oddsData oddsKey))
        confidence qualityGrade⟩
  else none

/-- `ValueBetDetector._analyze_market`. -/
def analyzeMarket (cfg : ValueBetConfig) (fixtureId : ℤ)
    (homeTeam awayTeam : String) (leagueId : ℤ) (kickoffTime marketKey : String)
    (predictionData oddsData : List (String × ℚ)) (bookmaker : String)
    (confidence : ℚ) (qualityGrade : String) : List ValueBet :=
  (marketMappings marketKey).filterMap
    (fun pr => analyzeSelection cfg fixtureId homeTeam awayTeam leagueId
      kickoffTime marketKey predictionData oddsData bookmaker confidence
      qualityGrade pr.1 pr.2)

/-- The per-fixture body of `detect_value_bets`: skip fixtures missing
predictions or odds, screen low-confidence predictions, pair each
prediction with the **first** odds snapshot of its market and the **last**
quality entry of its market (Python dict-comprehension overwrite). -/
def detectFixtureBets (cfg : ValueBetConfig) (fx : VBFixture) : List ValueBet :=
  if fx.predictions.isEmpty ∨ fx.odds.isEmpty then []
  else
    fx.predictions.flatMap (fun pred =>
      if pred.confidence_score < cfg.min_confidence then []
      else
        match fx.odds.find? (fun o => o.market_key == pred.market_key) with
        | none => []
        | some oddsSnap =>
          analyzeMarket cfg fx.id fx.home_team_name fx.away_team_name
            fx.league_id fx.kickoff_time pred.market_key pred.prediction
            oddsSnap.odds_data oddsSnap.bookmaker pred.confidence_score
            (match fx.quality_scores.reverse.find?
                (fun q => q.market_key == pred.market_key) with
              | some q => q.final_grade
              | none => pred.quality_grade))

/-- Descending order on the composite value score (`reverse=True`). -/
def vbLE (a b : ValueBet) : Prop := b.value_score ≤ a.value_score

instance : DecidableRel vbLE :=
  fun a b => inferInstanceAs (Decidable (b.value_score ≤ a.value_score))

instance : IsTotal ValueBet vbLE := ⟨fun a b => le_total b.value_score a.value_score⟩

instance : IsTrans ValueBet vbLE := ⟨fun _ _ _ hab hbc => le_trans hbc hab⟩

/-- `ValueBetDetector.detect_value_bets`. -/
def detectValueBets (cfg : ValueBetConfig) (fixtures : List VBFixture) :
    List ValueBet :=
  List.insertionSort vbLE (fixtures.flatMap (detectFixtureBets cfg))

theorem analyzeSelection_sound {cfg : ValueBetConfig} {fixtureId : ℤ}
    {homeTeam awayTeam : String} {leagueId : ℤ} {kickoffTime marketKey : String}
    {predictionData oddsData : List (String × ℚ)} {bookmaker : String}
    {confidence : ℚ} {qualityGrade : String} {predKey oddsKey : String}
    {vb : ValueBet}
    (h : analyzeSelection cfg fixtureId homeTeam awayTeam leagueId kickoffTime
      marketKey predictionData oddsData bookmaker confidence qualityGrade
      predKey oddsKey = some vb) :
    cfg.min_edge ≤ vb.edge ∧ cfg.min_ev ≤ vb.expected_value ∧
    12/10 ≤ vb.bookmaker_odds ∧ vb.bookmaker_odds ≤ 10 ∧
    vb.confidence_score = confidence ∧
    vb.value_score = calculateValueScore vb.edge vb.expected_value
      vb.confidence_score vb.quality_grade := by
  unfold analyzeSelection at h
  by_cases h1 : dictGet0 predictionData predKey = 0 ∨ dictGet0 oddsData oddsKey = 0
  · rw [if_pos h1] at h
    exact absurd h (by simp)
  rw [if_neg h1] at h
  by_cases h2 : dictGet0 oddsData oddsKey < 12/10 ∨ 10 < dictGet0 oddsData oddsKey
  · rw [if_pos h2] at h
    exact absurd h (by simp)
  rw [if_neg h2] at h
  by_cases h3 : cfg.min_edge ≤ dictGet0 predictionData predKey
        - calculateImpliedProbability (dictGet0 oddsData oddsKey) ∧
      cfg.min_ev ≤ calculateExpectedValue (dictGet0 predictionData predKey)
        (dictGet0 oddsData oddsKey)
  · rw [if_pos h3] at h
    push_neg at h2
    obtain rfl := (Option.some.injEq _ _).mp h
    exact ⟨h3.1, h3.2, h2.1, h2.2, rfl, rfl⟩
  · rw [if_neg h3] at h
    exact absurd h (by simp)

theorem detectFixtureBets_sound {cfg : ValueBetConfig} {fx : VBFixture}
    {vb : ValueBet} (h : vb ∈ detectFixtureBets cfg fx) :
    cfg.min_edge ≤ vb.edge ∧ cfg.min_ev ≤ vb.expected_value ∧
    12/10 ≤ vb.bookmaker_odds ∧ vb.bookmaker_odds ≤ 10 ∧
    cfg.min_confidence ≤ vb.confidence_score ∧
    vb.value_score = calculateValueScore vb.edge vb.expected_value
      vb.confidence_score vb.quality_grade := by
  unfold detectFixtureBets at h
  by_cases h0 : fx.predictions.isEmpty ∨ fx.odds.isEmpty
  · rw [if_pos h0] at h
    exact absurd h (List.not_mem_nil vb)
  rw [if_neg h0] at h
  obtain ⟨pred, _, hmem⟩ := List.mem_flatMap.mp h
  by_cases hconf : pred.confidence_score < cfg.min_confidence
  · rw [if_pos hconf] at hmem
    exact absurd hmem (List.not_mem_nil vb)
  rw [if_neg hconf] at hmem
  push_neg at hconf
  rcases hfind : fx.odds.find? (fun o => o.market_key == pred.market_key) with
    _ | oddsSnap
  · rw [hfind] at hmem
    exact absurd hmem (List.not_mem_nil vb)
  · rw [hfind] at hmem
    unfold analyzeMarket at hmem
    obtain ⟨pr, _, hsel⟩ := List.mem_filterMap.mp hmem
    obtain ⟨he, hev, ho1, ho2, hc, hs⟩ := analyzeSelection_sound hsel
    exact ⟨he, hev, ho1, ho2, hc ▸ hconf, hs⟩

/-- **C8, confirmed.**  Every value bet returned by `detect_value_bets`
(default thresholds) has edge ≥ 3 %, expected value ≥ 2 %, bookmaker odds
inside `[1.20, 10.0]` and confidence ≥ 0.40; its score is
`(min(edge/0.15,1)·40 + min(EV/0.20,1)·30 + confidence·30)` times the
quality-grade multiplier (A = 1.5, B = 1.2, C = 1.0, D = 0.8, F = 0.5);
and the returned list is sorted descending by that score. -/
theorem C8_detectValueBets (fixtures : List VBFixture) :
    (∀ vb ∈ detectValueBets {} fixtures,
      3/100 ≤ vb.edge ∧ 2/100 ≤ vb.expected_value ∧
      12/10 ≤ vb.bookmaker_odds ∧ vb.bookmaker_odds ≤ 10 ∧
      4/10 ≤ vb.confidence_score ∧
      vb.value_score = (min (vb.edge / (15/100)) 1 * 40
        + min (vb.expected_value / (20/100)) 1 * 30
        + vb.confidence_score * 30) * gradeMultiplier vb.quality_grade) ∧
    gradeMultiplier "A" = 15/10 ∧ gradeMultiplier "B" = 12/10 ∧
    gradeMultiplier "C" = 1 ∧ gradeMultiplier "D" = 8/10 ∧
    gradeMultiplier "F" = 5/10 ∧
    (detectValueBets {} fixtures).Sorted vbLE := by
  refine ⟨?_, by norm_num +decide [gradeMultiplier],
    by norm_num +decide [gradeMultiplier], by norm_num +decide [gradeMultiplier],
    by norm_num +decide [gradeMultiplier], by norm_num +decide [gradeMultiplier],
    List.sorted_insertionSort vbLE _⟩
  intro vb hvb
  have hperm := List.perm_insertionSort vbLE
    (fixtures.flatMap (detectFixtureBets {}))
  have hvb2 : vb ∈ fixtures.flatMap (detectFixtureBets {}) :=
    hperm.mem_iff.mp hvb
  obtain ⟨fx, _, hmem⟩ := List.mem_flatMap.mp hvb2
  obtain ⟨he, hev, ho1, ho2, hc, hs⟩ := detectFixtureBets_sound hmem
  exact ⟨he, hev, ho1, ho2, hc, by rw [hs]; rfl⟩

/-- A one-fixture input for the C8 witness: a 60 % home-win prediction
(grade A, confidence 0.8) against decimal odds 2.00. -/
def c8Fixture : VBFixture :=
  ⟨7, "H", "A", 39, "",
   [⟨"match_winner", [("home_win", 6/10)], 8/10, "A"⟩],
   [⟨"match_winner", [("home", 2)], "bk"⟩],
   []⟩

/-- The single value bet `detect_value_bets` finds on `c8Fixture`:
edge 0.10, EV 0.20, Kelly capped at 0.10, score
`(min(0.1/0.15,1)·40 + min(0.2/0.2,1)·30 + 0.8·30) · 1.5 = 121`. -/
def c8Bet : ValueBet :=
  ⟨7, "H", "A", 39, "", "match_winner", "H Win",
   6/10, 1/2, 2, "bk", 1/10, 1/5, 1/10, 8/10, "A", 121⟩

/-- Witness for C8: the theorem applied to the concrete fixture list
`[c8Fixture]` and its detected bet `c8Bet`. -/
theorem C8_witness :
    3/100 ≤ c8Bet.edge ∧ 2/100 ≤ c8Bet.expected_value ∧
    12/10 ≤ c8Bet.bookmaker_odds ∧ c8Bet.bookmaker_odds ≤ 10 ∧
    4/10 ≤ c8Bet.confidence_score ∧
    c8Bet.value_score = (min (c8Bet.edge / (15/100)) 1 * 40
      + min (c8Bet.expected_value / (20/100)) 1 * 30
      + c8Bet.confidence_score * 30) * gradeMultiplier c8Bet.quality_grade :=
  (C8_detectValueBets [c8Fixture]).1 c8Bet (by
    norm_num +decide [detectValueBets, detectFixtureBets, analyzeMarket,
      analyzeSelection, marketMappings, dictGet0, calculateImpliedProbability,
      calculateExpectedValue, calculateKellyFraction, calculateValueScore,
      gradeMultiplier, selectionName, c8Fixture, c8Bet, List.insertionSort,
      List.orderedInsert, List.find?, List.filterMap, List.flatMap])

/-! ## Dixon-Coles score model (`dixon_coles.py`)

`DixonColesModel` holds the fitted attack/defense dictionaries (read with
`.get(team_id, 0.0)`, modelled as total maps `ℤ → ℝ`), the global
`home_advantage`, the low-score correlation `rho`, and the v2.0 cup
adjustment constants.  `predict_score_probs` builds the τ-adjusted
truncated bivariate-Poisson matrix and renormalizes it;  `predict_match`
reads 1X2/totals/BTTS probabilities off the matrix (built with a
competition-adjusted home advantage) and applies the cup draw-boost and
upset adjustments.  The `most_likely_score` argmax and the
`competition_adjustments` log list are bookkeeping not referenced by any
claim and are not modelled; every probability field is.
-/

/-- `CUP_COMPETITIONS = {2, 3, 848, 4, 5}`. -/
def cupCompetitions : Finset ℤ := {2, 3, 848, 4, 5}

/-- `EUROPEAN_LEAGUES = {2, 3, 848}`. -/
def europeanLeagues : Finset ℤ := {2, 3, 848}

structure Model where
  rho : ℝ
  homeAdvantage : ℝ
  timeDecayRate : ℝ
  maxGoals : ℕ
  drawBoostCups : ℝ
  upsetFactorCups : ℝ
  homeAdvReductionEurope : ℝ
  attackParams : ℤ → ℝ
  defenseParams : ℤ → ℝ

/-- The `DixonColesModel.__init__` defaults, with empty (all-zero)
parameter dictionaries. -/
noncomputable def defaultModel : Model :=
  ⟨-13/100, 27/100, 65/10000, 10, 12/100, 8/100, 35/100, fun _ => 0, fun _ => 0⟩

/-- `scipy.stats.poisson.pmf(k, lam)`. -/
noncomputable def pois (lam : ℝ) (k : ℕ) : ℝ :=
  Real.exp (-lam) * lam ^ k / (Nat.factorial k)

/-- `DixonColesModel.tau`. -/
noncomputable def tau (homeGoals awayGoals : ℕ) (lambdaHome muAway rho : ℝ) : ℝ :=
  if homeGoals = 0 ∧ awayGoals = 0 then 1 - lambdaHome * muAway * rho
  else if homeGoals = 0 ∧ awayGoals = 1 then 1 + lambdaHome * rho
  else if homeGoals = 1 ∧ awayGoals = 0 then 1 + muAway * rho
  else if homeGoals = 1 ∧ awayGoals = 1 then 1 - rho
  else 1

/-- `np.clip(x, lo, hi)`. -/
noncomputable def clip (x lo hi : ℝ) : ℝ := max lo (min x hi)

/-- `lambda_home = np.clip(np.exp(ha + attack[home] + defense[away]), 0.1, 5.0)`
with the (possibly competition-adjusted) home advantage `effHa`. -/
noncomputable def lambdaHomeOf (m : Model) (effHa : ℝ) (homeId awayId : ℤ) : ℝ :=
  clip (Real.exp (effHa + m.attackParams homeId + m.defenseParams awayId)) (1/10) 5

/-- `mu_away = np.clip(np.exp(attack[away] + defense[home]), 0.1, 5.0)`. -/
noncomputable def muAwayOf (m : Model) (homeId awayId : ℤ) : ℝ :=
  clip (Real.exp (m.attackParams awayId + m.defenseParams homeId)) (1/10) 5

/-- One pre-normalization matrix cell
`poisson.pmf(i, λ) * poisson.pmf(j, μ) * tau(i, j, λ, μ, rho)`. -/
noncomputable def rawScoreProb (m : Model) (lam mu : ℝ) (i j : ℕ) : ℝ :=
  pois lam i * pois mu j * tau i j lam mu m.rho

/-- `prob_matrix.sum()` before normalization. -/
noncomputable def rawScoreTotal (m : Model) (lam mu : ℝ) : ℝ :=
  ∑ i ∈ Finset.range (m.maxGoals + 1), ∑ j ∈ Finset.range (m.maxGoals + 1),
    rawScoreProb m lam mu i j

/-- `DixonColesModel._predict_score_probs_adjusted` (cell `(i,j)` of the
normalized matrix, for a given effective home advantage). -/
noncomputable def predictScoreProbsAdjusted (m : Model) (homeId awayId : ℤ)
    (effHa : ℝ) (i j : ℕ) : ℝ :=
  rawScoreProb m (lambdaHomeOf m effHa homeId awayId) (muAwayOf m homeId awayId) i j
    / rawScoreTotal m (lambdaHomeOf m effHa homeId awayId) (muAwayOf m homeId awayId)

/-- `DixonColesModel.predict_score_probs` (uses the unadjusted
`self.home_advantage`). -/
noncomputable def predictScoreProbs (m : Model) (homeId awayId : ℤ) (i j : ℕ) : ℝ :=
  predictScoreProbsAdjusted m homeId awayId m.homeAdvantage i j

/-- Python `league_id in CUP_COMPETITIONS if league_id else False`. -/
def isCupCompetition : Option ℤ → Bool
  | none => false
  | some l => if l = 0 then false else decide (l ∈ cupCompetitions)

/-- Python `league_id in EUROPEAN_LEAGUES if league_id else False`. -/
def isEuropeanLeague : Option ℤ → Bool
  | none => false
  | some l => if l = 0 then false else decide (l ∈ europeanLeagues)

/-- The effective home advantage of `predict_match`: reduced by
`home_adv_reduction_europe` only when `is_european` holds. -/
noncomputable def effectiveHomeAdvantage (m : Model) (league : Option ℤ) : ℝ :=
  if isEuropeanLeague league then m.homeAdvantage * (1 - m.homeAdvReductionEurope)
  else m.homeAdvantage

/-- The raw home-win mass `sum of prob_matrix[i, j] for i > j`. -/
noncomputable def rawHomeWin (m : Model) (homeId awayId : ℤ) (effHa : ℝ) : ℝ :=
  ∑ i ∈ Finset.range (m.maxGoals + 1), ∑ j ∈ Finset.range (m.maxGoals + 1),
    if j < i then predictScoreProbsAdjusted m homeId awayId effHa i j else 0

/-- The raw draw mass (`i = j`). -/
noncomputable def rawDraw (m : Model) (homeId awayId : ℤ) (effHa : ℝ) : ℝ :=
  ∑ i ∈ Finset.range (m.maxGoals + 1), ∑ j ∈ Finset.range (m.maxGoals + 1),
    if i = j then predictScoreProbsAdjusted m homeId awayId effHa i j else 0

/-- The raw away-win mass (`i < j`). -/
noncomputable def rawAwayWin (m : Model) (homeId awayId : ℤ) (effHa : ℝ) : ℝ :=
  ∑ i ∈ Finset.range (m.maxGoals + 1), ∑ j ∈ Finset.range (m.maxGoals + 1),
    if i < j then predictScoreProbsAdjusted m homeId awayId effHa i j else 0

/-- Cup "ADJUSTMENT 1": the draw boost is taken 60/40 from the favourite. -/
noncomputable def cupBoostHome (m : Model) (h a : ℝ) : ℝ :=
  if a < h then h - m.drawBoostCups * (6/10) else h - m.drawBoostCups * (4/10)

noncomputable def cupBoostAway (m : Model) (h a : ℝ) : ℝ :=
  if a < h then a - m.drawBoostCups * (4/10) else a - m.drawBoostCups * (6/10)

/-- Home-win mass after both cup adjustments (draw boost, then the upset
factor when the adjusted home mass exceeds the adjusted away mass by more
than 15 points). -/
noncomputable def finalHome (m : Model) (h a : ℝ) (isCup : Bool) : ℝ :=
  if isCup then
    if cupBoostAway m h a + 15/100 < cupBoostHome m h a then
      cupBoostHome m h a - m.upsetFactorCups
    else cupBoostHome m h a
  else h

noncomputable def finalAway (m : Model) (h a : ℝ) (isCup : Bool) : ℝ :=
  if isCup then
    if cupBoostAway m h a + 15/100 < cupBoostHome m h a then
      cupBoostAway m h a + m.upsetFactorCups
    else cupBoostAway m h a
  else a

noncomputable def finalDraw (m : Model) (d : ℝ) (isCup : Bool) : ℝ :=
  if isCup then d + m.drawBoostCups else d

/-- The over-2.5 mass (`i + j > 2`). -/
noncomputable def rawOver (m : Model) (homeId awayId : ℤ) (effHa : ℝ) (line : ℕ) : ℝ :=
  ∑ i ∈ Finset.range (m.maxGoals + 1), ∑ j ∈ Finset.range (m.maxGoals + 1),
    if line < i + j then predictScoreProbsAdjusted m homeId awayId effHa i j else 0

/-- The BTTS-yes mass (`i ≥ 1` and `j ≥ 1`). -/
noncomputable def rawBtts (m : Model) (homeId awayId : ℤ) (effHa : ℝ) : ℝ :=
  ∑ i ∈ Finset.range (m.maxGoals + 1), ∑ j ∈ Finset.range (m.maxGoals + 1),
    if 1 ≤ i ∧ 1 ≤ j then predictScoreProbsAdjusted m homeId awayId effHa i j else 0

structure MatchPrediction where
  homeWin : ℝ
  draw : ℝ
  awayWin : ℝ
  over25 : ℝ
  under25 : ℝ
  over35 : ℝ
  under35 : ℝ
  bttsYes : ℝ
  bttsNo : ℝ
  expectedGoalsHome : ℝ
  expectedGoalsAway : ℝ
  expectedGoalsTotal : ℝ
  modelHomeAdvantage : ℝ
  modelRho : ℝ
  isCup : Bool

/-- `DixonColesModel.predict_match`.  The 1X2 masses are read off the
adjusted matrix, the cup adjustments are applied, the triple is
renormalized by its sum, and every reported number is rounded as in the
source (4 decimals for probabilities, 2 for expected goals, which are the
**unclipped** `exp(eff_ha + attack + defense)` values). -/
noncomputable def predictMatch (m : Model) (homeId awayId : ℤ)
    (league : Option ℤ) : MatchPrediction :=
  { homeWin := round4 (finalHome m (rawHomeWin m homeId awayId (effectiveHomeAdvantage m league))
        (rawAwayWin m homeId awayId (effectiveHomeAdvantage m league)) (isCupCompetition league)
      / (finalHome m (rawHomeWin m homeId awayId (effectiveHomeAdvantage m league))
          (rawAwayWin m homeId awayId (effectiveHomeAdvantage m league)) (isCupCompetition league)
        + finalDraw m (rawDraw m homeId awayId (effectiveHomeAdvantage m league)) (isCupCompetition league)
        + finalAway m (rawHomeWin m homeId awayId (effectiveHomeAdvantage m league))
          (rawAwayWin m homeId awayId (effectiveHomeAdvantage m league)) (isCupCompetition league)))
    draw := round4 (finalDraw m (rawDraw m homeId awayId (effectiveHomeAdvantage m league)) (isCupCompetition league)
      / (finalHome m (rawHomeWin m homeId awayId (effectiveHomeAdvantage m league))
          (rawAwayWin m homeId awayId (effectiveHomeAdvantage m league)) (isCupCompetition league)
        + finalDraw m (rawDraw m homeId awayId (effectiveHomeAdvantage m league)) (isCupCompetition league)
        + finalAway m (rawHomeWin m homeId awayId (effectiveHomeAdvantage m league))
          (rawAwayWin m homeId awayId (effectiveHomeAdvantage m league)) (isCupCompetition league)))
    awayWin := round4 (finalAway m (rawHomeWin m homeId awayId (effectiveHomeAdvantage m league))
        (rawAwayWin m homeId awayId (effectiveHomeAdvantage m league)) (isCupCompetition league)
      / (finalHome m (rawHomeWin m homeId awayId (effectiveHomeAdvantage m league))
          (rawAwayWin m homeId awayId (effectiveHomeAdvantage m league)) (isCupCompetition league)
        + finalDraw m (rawDraw m homeId awayId (effectiveHomeAdvantage m league)) (isCupCompetition league)
        + finalAway m (rawHomeWin m homeId awayId (effectiveHomeAdvantage m league))
          (rawAwayWin m homeId awayId (effectiveHomeAdvantage m league)) (isCupCompetition league)))
    over25 := round4 (rawOver m homeId awayId (effectiveHomeAdvantage m league) 2)
    under25 := round4 (1 - rawOver m homeId awayId (effectiveHomeAdvantage m league) 2)
    over35 := round4 (rawOver m homeId awayId (effectiveHomeAdvantage m league) 3)
    under35 := round4 (1 - rawOver m homeId awayId (effectiveHomeAdvantage m league) 3)
    bttsYes := round4 (rawBtts m homeId awayId (effectiveHomeAdvantage m league))
    bttsNo := round4 (1 - rawBtts m homeId awayId (effectiveHomeAdvantage m league))
    expectedGoalsHome := round2 (Real.exp (effectiveHomeAdvantage m league
      + m.attackParams homeId + m.defenseParams awayId))
    expectedGoalsAway := round2 (Real.exp (m.attackParams awayId + m.defenseParams homeId))
    expectedGoalsTotal := round2 (Real.exp (effectiveHomeAdvantage m league
        + m.attackParams homeId + m.defenseParams awayId)
      + Real.exp (m.attackParams awayId + m.defenseParams homeId))
    modelHomeAdvantage := round4 (effectiveHomeAdvantage m league)
    modelRho := round4 m.rho
    isCup := isCupCompetition league }

theorem pois_pos {lam : ℝ} (hlam : 0 < lam) (k : ℕ) : 0 < pois lam k := by
  unfold pois
  apply div_pos (mul_pos (Real.exp_pos _) (pow_pos hlam k))
  exact_mod_cast Nat.factorial_pos k

theorem tau_eq_one_of_notLow {i j : ℕ} (lam mu rho : ℝ) (h : 2 ≤ i ∨ 2 ≤ j) :
    tau i j lam mu rho = 1 := by
  unfold tau
  split_ifs with h1 h2 h3 h4 <;> first | rfl | omega

/-- The four τ corrections cancel: the pre-normalization matrix total is
the product of the two truncated Poisson totals. -/
theorem rawScoreTotal_eq_prod (m : Model) (lam mu : ℝ) (hN : 1 ≤ m.maxGoals) :
    rawScoreTotal m lam mu
      = (∑ i ∈ Finset.range (m.maxGoals + 1), pois lam i)
        * (∑ j ∈ Finset.range (m.maxGoals + 1), pois mu j) := by
  unfold rawScoreTotal rawScoreProb
  have hsplit : ∀ i j : ℕ, pois lam i * pois mu j * tau i j lam mu m.rho
      = pois lam i * pois mu j
        + pois lam i * pois mu j * (tau i j lam mu m.rho - 1) := by
    intro i j
    ring
  simp_rw [hsplit, Finset.sum_add_distrib]
  rw [Finset.sum_mul_sum]
  have hsub : ({0, 1} : Finset ℕ) ⊆ Finset.range (m.maxGoals + 1) := by
    intro x hx
    have hx2 : x = 0 ∨ x = 1 := by simpa using hx
    simp only [Finset.mem_range]
    omega
  have houter : ∑ i ∈ Finset.range (m.maxGoals + 1), ∑ j ∈ Finset.range (m.maxGoals + 1),
      pois lam i * pois mu j * (tau i j lam mu m.rho - 1)
      = ∑ i ∈ ({0, 1} : Finset ℕ), ∑ j ∈ Finset.range (m.maxGoals + 1),
        pois lam i * pois mu j * (tau i j lam mu m.rho - 1) := by
    refine (Finset.sum_subset hsub ?_).symm
    intro i _ hi
    have h2 : 2 ≤ i := by
      simp at hi
      omega
    apply Finset.sum_eq_zero
    intro j _
    rw [tau_eq_one_of_notLow lam mu m.rho (Or.inl h2)]
    ring
  have hinner : ∀ i ∈ ({0, 1} : Finset ℕ),
      ∑ j ∈ Finset.range (m.maxGoals + 1),
        pois lam i * pois mu j * (tau i j lam mu m.rho - 1)
      = ∑ j ∈ ({0, 1} : Finset ℕ),
        pois lam i * pois mu j * (tau i j lam mu m.rho - 1) := by
    intro i _
    refine (Finset.sum_subset hsub ?_).symm
    intro j _ hj
    have h2 : 2 ≤ j := by
      simp at hj
      omega
    rw [tau_eq_one_of_notLow lam mu m.rho (Or.inr h2)]
    ring
  rw [houter, Finset.sum_congr rfl hinner]
  have hzero : ∑ i ∈ ({0, 1} : Finset ℕ), ∑ j ∈ ({0, 1} : Finset ℕ),
      pois lam i * pois mu j * (tau i j lam mu m.rho - 1) = 0 := by
    rw [show ({0, 1} : Finset ℕ) = insert 0 {1} from rfl]
    rw [Finset.sum_insert (by simp), Finset.sum_singleton,
      Finset.sum_insert (by simp), Finset.sum_singleton,
      Finset.sum_insert (by simp), Finset.sum_singleton]
    unfold tau pois
    norm_num [Nat.factorial]
    ring
  rw [hzero]
  ring

theorem clip_pos (x : ℝ) : 0 < clip x (1/10) 5 := by
  unfold clip
  have : (0:ℝ) < 1/10 := by norm_num
  exact lt_max_of_lt_left this

theorem rawScoreTotal_pos (m : Model) {lam mu : ℝ} (hlam : 0 < lam)
    (hmu : 0 < mu) (hN : 1 ≤ m.maxGoals) : 0 < rawScoreTotal m lam mu := by
  rw [rawScoreTotal_eq_prod m lam mu hN]
  apply mul_pos <;>
    exact Finset.sum_pos (fun k _ => pois_pos (by assumption) k) ⟨0, by simp⟩

/-- **C2, confirmed.**  For every pair of team ids, `predict_score_probs`
returns the matrix whose cell `(i,j)` is proportional to
`Poisson(i;λ)·Poisson(j;μ)·τ(i,j)` — with `λ = exp(ha + attack_home +
defense_away)` and `μ = exp(attack_away + defense_home)` each clipped to
`[0.1, 5.0]`, and τ equal to `1−λμρ`, `1+λρ`, `1+μρ`, `1−ρ` on the four
low-score cells and `1` elsewhere — renormalized so that the entries over
`0 ≤ i,j ≤ max_goals` sum to exactly `1` (hence to `1.0` within `1e-6`). -/
theorem C2_scoreMatrix (m : Model) (homeId awayId : ℤ) (hN : 1 ≤ m.maxGoals) :
    lambdaHomeOf m m.homeAdvantage homeId awayId
      = clip (Real.exp (m.homeAdvantage + m.attackParams homeId
          + m.defenseParams awayId)) (1/10) 5 ∧
    muAwayOf m homeId awayId
      = clip (Real.exp (m.attackParams awayId + m.defenseParams homeId)) (1/10) 5 ∧
    (∀ i j : ℕ, predictScoreProbs m homeId awayId i j
      = pois (lambdaHomeOf m m.homeAdvantage homeId awayId) i
        * pois (muAwayOf m homeId awayId) j
        * tau i j (lambdaHomeOf m m.homeAdvantage homeId awayId)
            (muAwayOf m homeId awayId) m.rho
        / rawScoreTotal m (lambdaHomeOf m m.homeAdvantage homeId awayId)
            (muAwayOf m homeId awayId)) ∧
    (∀ lam mu : ℝ, tau 0 0 lam mu m.rho = 1 - lam * mu * m.rho ∧
      tau 0 1 lam mu m.rho = 1 + lam * m.rho ∧
      tau 1 0 lam mu m.rho = 1 + mu * m.rho ∧
      tau 1 1 lam mu m.rho = 1 - m.rho ∧
      ∀ i j : ℕ, 2 ≤ i ∨ 2 ≤ j → tau i j lam mu m.rho = 1) ∧
    ∑ i ∈ Finset.range (m.maxGoals + 1), ∑ j ∈ Finset.range (m.maxGoals + 1),
      predictScoreProbs m homeId awayId i j = 1 := by
  refine ⟨rfl, rfl, fun i j => rfl, ?_, ?_⟩
  · intro lam mu
    refine ⟨by unfold tau; norm_num, by unfold tau; norm_num,
      by unfold tau; norm_num, by unfold tau; norm_num,
      fun i j h => tau_eq_one_of_notLow lam mu m.rho h⟩
  · unfold predictScoreProbs predictScoreProbsAdjusted
    have hpos : 0 < rawScoreTotal m (lambdaHomeOf m m.homeAdvantage homeId awayId)
        (muAwayOf m homeId awayId) :=
      rawScoreTotal_pos m (clip_pos _) (clip_pos _) hN
    simp_rw [← Finset.sum_div]
    exact div_self (ne_of_gt hpos)

/-- Witness for C2 at the constructor-default model (`max_goals = 10`,
`rho = -0.13`, `home_advantage = 0.27`, empty parameter dictionaries). -/
theorem C2_witness :
    ∑ i ∈ Finset.range (defaultModel.maxGoals + 1),
      ∑ j ∈ Finset.range (defaultModel.maxGoals + 1),
        predictScoreProbs defaultModel 1 2 i j = 1 :=
  (C2_scoreMatrix defaultModel 1 2 (by norm_num [defaultModel])).2.2.2.2

/-- A fitted-parameter model for the C3 counterexample: the constructor
defaults (`home_advantage = 0.27`, `home_adv_reduction_europe = 0.35`). -/
noncomputable def c3Model : Model := defaultModel

/-- **C3, counterexample.**  League 4 (Euro qualifiers) is in
`CUP_COMPETITIONS`, but `predict_match` only reduces the effective home
advantage for `EUROPEAN_LEAGUES = {2, 3, 848}` (`is_european`), so for
league 4 the effective home advantage stays at the fitted value `0.27`
instead of the claimed `0.27 · (1 − 0.35)`. -/
theorem C3_counterexample :
    isCupCompetition (some 4) = true ∧
    effectiveHomeAdvantage c3Model (some 4) = c3Model.homeAdvantage ∧
    effectiveHomeAdvantage c3Model (some 4)
      ≠ c3Model.homeAdvantage * (1 - 35/100) := by
  refine ⟨by decide, ?_, ?_⟩
  · unfold effectiveHomeAdvantage
    rw [if_neg (by decide)]
  · unfold effectiveHomeAdvantage
    rw [if_neg (by decide)]
    norm_num [c3Model, defaultModel]

/-- **C3, amended.**  The effective home advantage used by `predict_match`
to build the score matrix equals the fitted home advantage reduced by the
configured fraction (default 35 %) exactly when the league id is one of
the *European club competitions* `{2, 3, 848}`; for the remaining cup
competitions (4, 5) and for all other leagues it is the unreduced fitted
value. -/
theorem C3_amended (m : Model) (league : Option ℤ) :
    (isEuropeanLeague league = true →
      effectiveHomeAdvantage m league
        = m.homeAdvantage * (1 - m.homeAdvReductionEurope)) ∧
    (isEuropeanLeague league = false →
      effectiveHomeAdvantage m league = m.homeAdvantage) := by
  constructor
  · intro h
    unfold effectiveHomeAdvantage
    rw [if_pos h]
  · intro h
    unfold effectiveHomeAdvantage
    rw [if_neg (by simp [h])]

/-- Witness for C3 (amended): league 2 (Champions League) is European, so
the default model's effective home advantage is `0.27 · (1 − 0.35)`. -/
theorem C3_witness :
    effectiveHomeAdvantage defaultModel (some 2)
      = defaultModel.homeAdvantage * (1 - defaultModel.homeAdvReductionEurope) :=
  (C3_amended defaultModel (some 2)).1 (by decide)

/-! ## Multi-market BTTS predictor (`multi_market_predictor.py`)

`MultiMarketPredictor._predict_btts(home_xg, away_xg, home_stats,
away_stats)` computes a Dixon-Coles-adjusted bivariate-Poisson estimate of
"both teams score" (its local `tau` helper is the same function as
`DixonColesModel.tau`, with fixed `rho = -0.15` and sums truncated at 6
goals), blends it with a clean-sheet-history estimate using the
constructor's blend ratios (defaults 0.80/0.20), clamps the blend to
`[0.10, 0.95]`, and reports `yes`/`no` rounded to 4 decimals.  The
`TeamStats` fields it reads are the integer clean-sheet and match counts.
-/

structure TeamStatsBtts where
  clean_sheets_home : ℤ
  matches_home : ℤ
  clean_sheets_away : ℤ
  matches_away : ℤ

structure BttsPrediction where
  yes : ℝ
  no : ℝ

/-- The blended (pre-clamp) BTTS-yes value of `_predict_btts`:
`btts_yes * blend_ratio_dc + hist_btts * blend_ratio_hist` where
`btts_yes = 1 − (P(0,0) + P(0, y>0) + P(x>0, 0))` (τ applied to the three
adjusted low-score terms, sums over 1…6) and `hist_btts` averages the two
complementary clean-sheet rates (`max(1, matches)` guards the division). -/
noncomputable def bttsBlended (blendRatioDc blendRatioHist homeXg awayXg : ℝ)
    (homeStats awayStats : TeamStatsBtts) : ℝ :=
  (1 - (pois homeXg 0 * pois awayXg 0 * tau 0 0 homeXg awayXg (-(15/100))
    + (∑ y ∈ Finset.Icc 1 6, pois homeXg 0 * pois awayXg y *
        (if y = 1 then tau 0 1 homeXg awayXg (-(15/100)) else 1))
    + (∑ x ∈ Finset.Icc 1 6, pois homeXg x * pois awayXg 0 *
        (if x = 1 then tau 1 0 homeXg awayXg (-(15/100)) else 1)))) * blendRatioDc
  + ((1 - (homeStats.clean_sheets_home : ℝ)
        / ((max 1 homeStats.matches_home : ℤ) : ℝ))
     + (1 - (awayStats.clean_sheets_away : ℝ)
        / ((max 1 awayStats.matches_away : ℤ) : ℝ))) / 2 * blendRatioHist

/-- `MultiMarketPredictor._predict_btts`: the blend is clamped by
`max(0.10, min(0.95, btts_yes))` and both outcomes are rounded. -/
noncomputable def predictBtts (blendRatioDc blendRatioHist homeXg awayXg : ℝ)
    (homeStats awayStats : TeamStatsBtts) : BttsPrediction :=
  ⟨round4 (max (1/10) (min (95/100)
      (bttsBlended blendRatioDc blendRatioHist homeXg awayXg homeStats awayStats))),
   round4 (1 - max (1/10) (min (95/100)
      (bttsBlended blendRatioDc blendRatioHist homeXg awayXg homeStats awayStats)))⟩

/-- **C10, confirmed.**  For every input — any expected-goals pair, any
team statistics, any blend ratios — the BTTS prediction's `yes`
probability is clamped to `[0.10, 0.95]` (even when the blended
Poisson/clean-sheet estimate falls outside that range), and `no` is `1`
minus the clamped value up to the 4-decimal rounding: both outcomes are
the roundings of `y` and `1 − y` for the same clamped `y`, so their sum is
`1` within `10⁻⁴`. -/
theorem C10_bttsClamped (blendRatioDc blendRatioHist homeXg awayXg : ℝ)
    (homeStats awayStats : TeamStatsBtts) :
    1/10 ≤ (predictBtts blendRatioDc blendRatioHist homeXg awayXg
      homeStats awayStats).yes ∧
    (predictBtts blendRatioDc blendRatioHist homeXg awayXg
      homeStats awayStats).yes ≤ 95/100 ∧
    (∃ y : ℝ, 1/10 ≤ y ∧ y ≤ 95/100 ∧
      (predictBtts blendRatioDc blendRatioHist homeXg awayXg
        homeStats awayStats).yes = round4 y ∧
      (predictBtts blendRatioDc blendRatioHist homeXg awayXg
        homeStats awayStats).no = round4 (1 - y)) ∧
    |(predictBtts blendRatioDc blendRatioHist homeXg awayXg
        homeStats awayStats).yes
      + (predictBtts blendRatioDc blendRatioHist homeXg awayXg
        homeStats awayStats).no - 1| ≤ 1/10000 := by
  have hy1 : (1/10 : ℝ) ≤ max (1/10) (min (95/100)
      (bttsBlended blendRatioDc blendRatioHist homeXg awayXg homeStats awayStats)) :=
    le_max_left _ _
  have hy2 : max (1/10) (min (95/100)
      (bttsBlended blendRatioDc blendRatioHist homeXg awayXg homeStats awayStats))
      ≤ 95/100 :=
    max_le (by norm_num) (min_le_left _ _)
  have hyes1 : (1/10 : ℝ) ≤ (predictBtts blendRatioDc blendRatioHist homeXg awayXg
      homeStats awayStats).yes := by
    have h1 : round4 ((1000 : ℤ) / 10000 : ℝ) ≤ (predictBtts blendRatioDc
        blendRatioHist homeXg awayXg homeStats awayStats).yes :=
      round4_mono (by push_cast; linarith)
    rw [round4_int_div] at h1
    calc (1/10 : ℝ) = ((1000 : ℤ) : ℝ) / 10000 := by norm_num
      _ ≤ _ := h1
  have hyes2 : (predictBtts blendRatioDc blendRatioHist homeXg awayXg
      homeStats awayStats).yes ≤ 95/100 := by
    have h1 : (predictBtts blendRatioDc blendRatioHist homeXg awayXg
        homeStats awayStats).yes ≤ round4 ((9500 : ℤ) / 10000 : ℝ) :=
      round4_mono (by push_cast; linarith)
    rw [round4_int_div] at h1
    calc (predictBtts blendRatioDc blendRatioHist homeXg awayXg
        homeStats awayStats).yes ≤ ((9500 : ℤ) : ℝ) / 10000 := h1
      _ = 95/100 := by norm_num
  refine ⟨hyes1, hyes2, ⟨_, hy1, hy2, rfl, rfl⟩, ?_⟩
  have ha := round4_sub_le (max (1/10) (min (95/100)
    (bttsBlended blendRatioDc blendRatioHist homeXg awayXg homeStats awayStats)))
  have hb := sub_round4_le (max (1/10) (min (95/100)
    (bttsBlended blendRatioDc blendRatioHist homeXg awayXg homeStats awayStats)))
  have hc := round4_sub_le (1 - max (1/10) (min (95/100)
    (bttsBlended blendRatioDc blendRatioHist homeXg awayXg homeStats awayStats)))
  have hd := sub_round4_le (1 - max (1/10) (min (95/100)
    (bttsBlended blendRatioDc blendRatioHist homeXg awayXg homeStats awayStats)))
  rw [abs_le]
  constructor
  · show (-(1/10000) : ℝ) ≤ _
    unfold predictBtts
    dsimp only
    linarith
  · show _ ≤ (1/10000 : ℝ)
    unfold predictBtts
    dsimp only
    linarith

/-! ## Dixon-Coles fitting loop (`dixon_coles.py`, `fit`)

`DixonColesModel.fit(fixtures, min_matches=5)` filters the fixtures with
scores, filters teams below the minimum match count, derives the weighted
league goal averages and the home advantage, then iterates (up to 15
times): accumulate weighted actual vs. expected goals per team, update
each team's attack/defense by a damped log-ratio clipped to `[-1.5, 1.5]`,
and re-center the attack values to mean 0.  A fixture is represented by
its ids, optional scores, and its age in days (`time_weight` is
`exp(-ξ · days_ago)`; the chronological sort in the source does not affect
the per-iteration sums, which is all the claims reference).  The attack
and defense dictionaries (keys exactly the fitted teams, read with
`.get(·, 0.0)` at prediction time) are modelled as total maps that the
step leaves unchanged outside the team set.
-/

structure FitFixture where
  id : ℤ
  homeTeamId : ℤ
  awayTeamId : ℤ
  homeScore : Option ℤ
  awayScore : Option ℤ
  daysAgo : ℕ
  deriving DecidableEq

/-- The score of a fixture that passed the validity filter (`getD 0` is
never reached on filtered fixtures). -/
def homeGoals (f : FitFixture) : ℤ := f.homeScore.getD 0

def awayGoals (f : FitFixture) : ℤ := f.awayScore.getD 0

/-- `valid_fixtures`: fixtures whose two scores are present. -/
def validFixtures (fixtures : List FitFixture) : List FitFixture :=
  fixtures.filter (fun f => f.homeScore ≠ none ∧ f.awayScore ≠ none)

/-- `team_match_count`: each fixture counts once for its home and once for
its away team. -/
def teamMatchCount (fixtures : List FitFixture) (t : ℤ) : ℕ :=
  (fixtures.map (fun f => (if f.homeTeamId = t then 1 else 0)
    + (if f.awayTeamId = t then 1 else 0))).sum

/-- `valid_teams`: teams that appear in the score-valid fixtures with at
least `min_matches` matches. -/
def fitTeams (fixtures : List FitFixture) (minMatches : ℕ) : Finset ℤ :=
  (((validFixtures fixtures).map (·.homeTeamId)
    ++ (validFixtures fixtures).map (·.awayTeamId)).toFinset).filter
    (fun t => minMatches ≤ teamMatchCount (validFixtures fixtures) t)

/-- The second filtering of `valid_fixtures`: both teams must be valid. -/
def fitFixturesOf (fixtures : List FitFixture) (minMatches : ℕ) : List FitFixture :=
  (validFixtures fixtures).filter
    (fun f => f.homeTeamId ∈ fitTeams fixtures minMatches
      ∧ f.awayTeamId ∈ fitTeams fixtures minMatches)

/-- `time_weight`: `exp(-ξ · days_ago)` (`days_ago` is already ≥ 0). -/
noncomputable def timeWeight (m : Model) (f : FitFixture) : ℝ :=
  Real.exp (-m.timeDecayRate * (f.daysAgo : ℝ))

noncomputable def totalWeightOf (m : Model) (fs : List FitFixture) : ℝ :=
  (fs.map (timeWeight m)).sum

noncomputable def weightedHomeGoals (m : Model) (fs : List FitFixture) : ℝ :=
  (fs.map (fun f => (homeGoals f : ℝ) * timeWeight m f)).sum

noncomputable def weightedAwayGoals (m : Model) (fs : List FitFixture) : ℝ :=
  (fs.map (fun f => (awayGoals f : ℝ) * timeWeight m f)).sum

noncomputable def fitAvgHome (m : Model) (fixtures : List FitFixture)
    (minMatches : ℕ) : ℝ :=
  weightedHomeGoals m (fitFixturesOf fixtures minMatches)
    / totalWeightOf m (fitFixturesOf fixtures minMatches)

noncomputable def fitAvgAway (m : Model) (fixtures : List FitFixture)
    (minMatches : ℕ) : ℝ :=
  weightedAwayGoals m (fitFixturesOf fixtures minMatches)
    / totalWeightOf m (fitFixturesOf fixtures minMatches)

noncomputable def fitAvgGoals (m : Model) (fixtures : List FitFixture)
    (minMatches : ℕ) : ℝ :=
  (fitAvgHome m fixtures minMatches + fitAvgAway m fixtures minMatches) / 2

/-- `self.home_advantage = log(avg_home / avg_away) / 2`. -/
noncomputable def fitHomeAdv (m : Model) (fixtures : List FitFixture)
    (minMatches : ℕ) : ℝ :=
  Real.log (fitAvgHome m fixtures minMatches / fitAvgAway m fixtures minMatches) / 2

/-- `exp_home = avg_goals * exp(home_adv + attack[ht] + defense[at])`. -/
noncomputable def expHomeOf (avgGoals ha : ℝ) (attack defense : ℤ → ℝ)
    (f : FitFixture) : ℝ :=
  avgGoals * Real.exp (ha + attack f.homeTeamId + defense f.awayTeamId)

/-- `exp_away = avg_goals * exp(-home_adv + attack[at] + defense[ht])`. -/
noncomputable def expAwayOf (avgGoals ha : ℝ) (attack defense : ℤ → ℝ)
    (f : FitFixture) : ℝ :=
  avgGoals * Real.exp (-ha + attack f.awayTeamId + defense f.homeTeamId)

noncomputable def goalsScoredOf (m : Model) (fs : List FitFixture) (t : ℤ) : ℝ :=
  (fs.map (fun f => (if f.homeTeamId = t then timeWeight m f * (homeGoals f : ℝ) else 0)
    + (if f.awayTeamId = t then timeWeight m f * (awayGoals f : ℝ) else 0))).sum

noncomputable def goalsConcededOf (m : Model) (fs : List FitFixture) (t : ℤ) : ℝ :=
  (fs.map (fun f => (if f.homeTeamId = t then timeWeight m f * (awayGoals f : ℝ) else 0)
    + (if f.awayTeamId = t then timeWeight m f * (homeGoals f : ℝ) else 0))).sum

noncomputable def expectedScoredOf (m : Model) (fs : List FitFixture)
    (avgGoals ha : ℝ) (attack defense : ℤ → ℝ) (t : ℤ) : ℝ :=
  (fs.map (fun f =>
    (if f.homeTeamId = t then timeWeight m f * expHomeOf avgGoals ha attack defense f else 0)
    + (if f.awayTeamId = t then timeWeight m f * expAwayOf avgGoals ha attack defense f else 0))).sum

noncomputable def expectedConcededOf (m : Model) (fs : List FitFixture)
    (avgGoals ha : ℝ) (attack defense : ℤ → ℝ) (t : ℤ) : ℝ :=
  (fs.map (fun f =>
    (if f.homeTeamId = t then timeWeight m f * expAwayOf avgGoals ha attack defense f else 0)
    + (if f.awayTeamId = t then timeWeight m f * expHomeOf avgGoals ha attack defense f else 0))).sum

noncomputable def teamWeightOf (m : Model) (fs : List FitFixture) (t : ℤ) : ℝ :=
  (fs.map (fun f => (if f.homeTeamId = t then timeWeight m f else 0)
    + (if f.awayTeamId = t then timeWeight m f else 0))).sum

/-- `max(-1.5, min(1.5, x))`. -/
noncomputable def clipAD (x : ℝ) : ℝ := max (-(3/2)) (min (3/2) x)

/-- The attack update of one iteration, before the mean-centering: damped
(0.5) log-ratio of weighted actual to expected goals scored, clipped;
teams with zero accumulated weight keep their previous value. -/
noncomputable def updatedAttack (m : Model) (fs : List FitFixture)
    (avgGoals ha : ℝ) (attack defense : ℤ → ℝ) (t : ℤ) : ℝ :=
  if 0 < teamWeightOf m fs t then
    clipAD (attack t + (1/2) *
      (if 0 < expectedScoredOf m fs avgGoals ha attack defense t then
        Real.log (goalsScoredOf m fs t / expectedScoredOf m fs avgGoals ha attack defense t)
      else 0))
  else attack t

/-- The defense update of one iteration (no centering is applied to it). -/
noncomputable def updatedDefense (m : Model) (fs : List FitFixture)
    (avgGoals ha : ℝ) (attack defense : ℤ → ℝ) (t : ℤ) : ℝ :=
  if 0 < teamWeightOf m fs t then
    clipAD (defense t + (1/2) *
      (if 0 < expectedConcededOf m fs avgGoals ha attack defense t then
        Real.log (goalsConcededOf m fs t / expectedConcededOf m fs avgGoals ha attack defense t)
      else 0))
  else defense t

/-- `mean_attack = sum(attack.values()) / len(attack)` over the updated
(pre-centering) values. -/
noncomputable def fitMeanAttack (m : Model) (fixtures : List FitFixture)
    (minMatches : ℕ) (attack defense : ℤ → ℝ) : ℝ :=
  (∑ t ∈ fitTeams fixtures minMatches,
    updatedAttack m (fitFixturesOf fixtures minMatches)
      (fitAvgGoals m fixtures minMatches) (fitHomeAdv m fixtures minMatches)
      attack defense t)
  / (fitTeams fixtures minMatches).card

/-- One iteration of the `for iteration in range(15)` loop of `fit`:
accumulate, update with clipping, re-center attack to mean 0.  (The
early-stopping test only decides how many iterations run; it does not
change what one iteration computes.) -/
noncomputable def fitStep (m : Model) (fixtures : List FitFixture)
    (minMatches : ℕ) (p : (ℤ → ℝ) × (ℤ → ℝ)) : (ℤ → ℝ) × (ℤ → ℝ) :=
  (fun t => if t ∈ fitTeams fixtures minMatches then
      updatedAttack m (fitFixturesOf fixtures minMatches)
        (fitAvgGoals m fixtures minMatches) (fitHomeAdv m fixtures minMatches)
        p.1 p.2 t
      - fitMeanAttack m fixtures minMatches p.1 p.2
    else p.1 t,
   fun t => updatedDefense m (fitFixturesOf fixtures minMatches)
     (fitAvgGoals m fixtures minMatches) (fitHomeAdv m fixtures minMatches)
     p.1 p.2 t)

/-- The `(attack, defense)` state after `k` iterations of the fitting
loop, from the all-zero initialization. -/
noncomputable def fitIterate (m : Model) (fixtures : List FitFixture)
    (minMatches : ℕ) (k : ℕ) : (ℤ → ℝ) × (ℤ → ℝ) :=
  (fitStep m fixtures minMatches)^[k] (fun _ => 0, fun _ => 0)

theorem clipAD_bounds (x : ℝ) : -(3/2) ≤ clipAD x ∧ clipAD x ≤ 3/2 :=
  ⟨le_max_left _ _, max_le (by norm_num) (min_le_left _ _)⟩

theorem fitIterate_attack_outside (m : Model) (fixtures : List FitFixture)
    (minMatches : ℕ) {t : ℤ} (ht : t ∉ fitTeams fixtures minMatches) (k : ℕ) :
    (fitIterate m fixtures minMatches k).1 t = 0 := by
  induction k with
  | zero => rfl
  | succ n ih =>
    unfold fitIterate at ih ⊢
    rw [Function.iterate_succ_apply']
    show (fitStep m fixtures minMatches _).1 t = 0
    unfold fitStep
    dsimp only
    rw [if_neg ht]
    exact ih

theorem fitIterate_defense_bounds (m : Model) (fixtures : List FitFixture)
    (minMatches : ℕ) (k : ℕ) (t : ℤ) :
    -(3/2) ≤ (fitIterate m fixtures minMatches k).2 t ∧
    (fitIterate m fixtures minMatches k).2 t ≤ 3/2 := by
  induction k with
  | zero => norm_num [fitIterate]
  | succ n ih =>
    unfold fitIterate at ih ⊢
    rw [Function.iterate_succ_apply']
    show -(3/2) ≤ (fitStep m fixtures minMatches _).2 t ∧
      (fitStep m fixtures minMatches _).2 t ≤ 3/2
    unfold fitStep updatedDefense
    dsimp only
    split_ifs
    · exact clipAD_bounds _
    · exact clipAD_bounds _
    · exact ih

/-- **C7, amended.**  After every iteration of the fitting loop the attack
parameters are mean-zero over the fitted teams, and the attack/defense
updates are clipped to `[-1.5, 1.5]` **before** the attack re-centering;
consequently the defense values always stay within `[-1.5, 1.5]`, while
the re-centered attack values are only guaranteed to lie within the wider
interval `[-3, 3]` (the subtracted mean itself lies in `[-1.5, 1.5]`) —
not within `[-1.5, 1.5]` as claimed (see the counterexample).  The
positive-accumulated-weight hypothesis holds whenever every fitted team
retains a fixture after the validity filters. -/
theorem C7_amended (m : Model) (fixtures : List FitFixture) (minMatches : ℕ)
    (k : ℕ) (hne : (fitTeams fixtures minMatches).Nonempty)
    (hw : ∀ t ∈ fitTeams fixtures minMatches,
      0 < teamWeightOf m (fitFixturesOf fixtures minMatches) t) :
    (∑ t ∈ fitTeams fixtures minMatches,
      (fitIterate m fixtures minMatches (k+1)).1 t) = 0 ∧
    (∀ t : ℤ, -(3/2) ≤ (fitIterate m fixtures minMatches (k+1)).2 t ∧
      (fitIterate m fixtures minMatches (k+1)).2 t ≤ 3/2) ∧
    (∀ t : ℤ, -3 ≤ (fitIterate m fixtures minMatches (k+1)).1 t ∧
      (fitIterate m fixtures minMatches (k+1)).1 t ≤ 3) := by
  have hcard : 0 < (fitTeams fixtures minMatches).card :=
    Finset.card_pos.mpr hne
  have hcardR : (0:ℝ) < ((fitTeams fixtures minMatches).card : ℝ) := by
    exact_mod_cast hcard
  have hstep : fitIterate m fixtures minMatches (k+1)
      = fitStep m fixtures minMatches (fitIterate m fixtures minMatches k) := by
    unfold fitIterate
    rw [Function.iterate_succ_apply']
  have hUbounds : ∀ t ∈ fitTeams fixtures minMatches,
      -(3/2) ≤ updatedAttack m (fitFixturesOf fixtures minMatches)
        (fitAvgGoals m fixtures minMatches) (fitHomeAdv m fixtures minMatches)
        (fitIterate m fixtures minMatches k).1 (fitIterate m fixtures minMatches k).2 t ∧
      updatedAttack m (fitFixturesOf fixtures minMatches)
        (fitAvgGoals m fixtures minMatches) (fitHomeAdv m fixtures minMatches)
        (fitIterate m fixtures minMatches k).1 (fitIterate m fixtures minMatches k).2 t
        ≤ 3/2 := by
    intro t ht
    unfold updatedAttack
    rw [if_pos (hw t ht)]
    exact clipAD_bounds _
  have hsum_le : ∑ t ∈ fitTeams fixtures minMatches,
      updatedAttack m (fitFixturesOf fixtures minMatches)
        (fitAvgGoals m fixtures minMatches) (fitHomeAdv m fixtures minMatches)
        (fitIterate m fixtures minMatches k).1 (fitIterate m fixtures minMatches k).2 t
      ≤ (fitTeams fixtures minMatches).card • ((3:ℝ)/2) :=
    Finset.sum_le_card_nsmul _ _ _ (fun t ht => (hUbounds t ht).2)
  have hsum_ge : (fitTeams fixtures minMatches).card • (-(3:ℝ)/2)
      ≤ ∑ t ∈ fitTeams fixtures minMatches,
        updatedAttack m (fitFixturesOf fixtures minMatches)
          (fitAvgGoals m fixtures minMatches) (fitHomeAdv m fixtures minMatches)
          (fitIterate m fixtures minMatches k).1 (fitIterate m fixtures minMatches k).2 t :=
    Finset.card_nsmul_le_sum _ _ _ (fun t ht => by linarith [(hUbounds t ht).1])
  rw [nsmul_eq_mul] at hsum_le hsum_ge
  have hmean_le : fitMeanAttack m fixtures minMatches
      (fitIterate m fixtures minMatches k).1 (fitIterate m fixtures minMatches k).2
      ≤ 3/2 := by
    unfold fitMeanAttack
    rw [div_le_iff₀ hcardR]
    calc _ ≤ ((fitTeams fixtures minMatches).card : ℝ) * (3/2) := hsum_le
      _ = 3/2 * ((fitTeams fixtures minMatches).card : ℝ) := by ring
  have hmean_ge : -(3/2) ≤ fitMeanAttack m fixtures minMatches
      (fitIterate m fixtures minMatches k).1 (fitIterate m fixtures minMatches k).2 := by
    unfold fitMeanAttack
    rw [le_div_iff₀ hcardR]
    calc -(3/2) * ((fitTeams fixtures minMatches).card : ℝ)
        = ((fitTeams fixtures minMatches).card : ℝ) * (-3/2) := by ring
      _ ≤ _ := hsum_ge
  refine ⟨?_, fun t => fitIterate_defense_bounds m fixtures minMatches (k+1) t, ?_⟩
  · rw [hstep]
    have hcongr : ∀ t ∈ fitTeams fixtures minMatches,
        (fitStep m fixtures minMatches (fitIterate m fixtures minMatches k)).1 t
        = updatedAttack m (fitFixturesOf fixtures minMatches)
            (fitAvgGoals m fixtures minMatches) (fitHomeAdv m fixtures minMatches)
            (fitIterate m fixtures minMatches k).1 (fitIterate m fixtures minMatches k).2 t
          - fitMeanAttack m fixtures minMatches
            (fitIterate m fixtures minMatches k).1 (fitIterate m fixtures minMatches k).2 := by
      intro t ht
      unfold fitStep
      dsimp only
      rw [if_pos ht]
    rw [Finset.sum_congr rfl hcongr, Finset.sum_sub_distrib, Finset.sum_const,
      nsmul_eq_mul]
    unfold fitMeanAttack
    field_simp
  · intro t
    by_cases ht : t ∈ fitTeams fixtures minMatches
    · rw [hstep]
      have : (fitStep m fixtures minMatches (fitIterate m fixtures minMatches k)).1 t
          = updatedAttack m (fitFixturesOf fixtures minMatches)
              (fitAvgGoals m fixtures minMatches) (fitHomeAdv m fixtures minMatches)
              (fitIterate m fixtures minMatches k).1 (fitIterate m fixtures minMatches k).2 t
            - fitMeanAttack m fixtures minMatches
              (fitIterate m fixtures minMatches k).1 (fitIterate m fixtures minMatches k).2 := by
        unfold fitStep
        dsimp only
        rw [if_pos ht]
      rw [this]
      obtain ⟨hU1, hU2⟩ := hUbounds t ht
      constructor <;> linarith
    · rw [fitIterate_attack_outside m fixtures minMatches ht (k+1)]
      norm_num

/-- Witness input for C7 (amended): five copies of a 1-0 fixture between
teams 1 and 2, today. -/
def c7wFixtures : List FitFixture := List.replicate 5 ⟨0, 1, 2, some 1, some 0, 0⟩

/-- Witness for C7 (amended): after one fitting iteration on
`c7wFixtures`, the attack parameters are mean-zero, the defenses lie in
`[-1.5, 1.5]` and the attacks in `[-3, 3]`. -/
theorem C7_witness :
    (∑ t ∈ fitTeams c7wFixtures 5,
      (fitIterate defaultModel c7wFixtures 5 1).1 t) = 0 ∧
    (∀ t : ℤ, -(3/2) ≤ (fitIterate defaultModel c7wFixtures 5 1).2 t ∧
      (fitIterate defaultModel c7wFixtures 5 1).2 t ≤ 3/2) ∧
    (∀ t : ℤ, -3 ≤ (fitIterate defaultModel c7wFixtures 5 1).1 t ∧
      (fitIterate defaultModel c7wFixtures 5 1).1 t ≤ 3) := by
  apply C7_amended defaultModel c7wFixtures 5 0
  · decide
  · intro t ht
    have hT : fitTeams c7wFixtures 5 = {1, 2} := by decide
    have hfs : fitFixturesOf c7wFixtures 5 = c7wFixtures := by decide
    rw [hfs, hT] at *
    unfold teamWeightOf timeWeight c7wFixtures defaultModel
    simp only [List.map_replicate, List.sum_replicate, smul_add, nsmul_eq_mul,
      Nat.cast_ofNat, Nat.cast_zero, mul_zero, neg_zero, neg_mul, Real.exp_zero]
    fin_cases ht <;> norm_num

theorem clipAD_of_ge {x : ℝ} (h : 3/2 ≤ x) : clipAD x = 3/2 := by
  unfold clipAD
  rw [min_eq_left h]
  exact max_eq_right (by norm_num)

theorem clipAD_of_le {x : ℝ} (h : x ≤ -(3/2)) : clipAD x = -(3/2) := by
  unfold clipAD
  rw [min_eq_right (by linarith), max_eq_left h]

theorem exp_three_lt : Real.exp 3 < 21 := by
  have h1 : Real.exp 1 < 2.7182818286 := Real.exp_one_lt_d9
  have h3 : Real.exp 3 = Real.exp 1 ^ 3 := by
    rw [← Real.exp_nat_mul]
    norm_num
  rw [h3]
  calc Real.exp 1 ^ 3 < 2.7182818286 ^ 3 :=
      pow_lt_pow_left₀ h1 (le_of_lt (Real.exp_pos 1)) (by norm_num)
    _ < 21 := by norm_num

/-- The C7 counterexample fixture set: 53 same-day fixtures among teams
1, 2, 3 (all with ≥ 5 matches).  Team 1 scores 21× its expected goals,
teams 2 and 3 score under 1/21 of theirs, so after the first iteration's
clipping the attacks are `(+1.5, -1.5, -1.5)`; the re-centering then
pushes team 1 to `+2.0`, outside `[-1.5, 1.5]`. -/
def c7Fixtures : List FitFixture :=
  [⟨0, 1, 2, some 52, some 0, 0⟩, ⟨0, 1, 2, some 52, some 0, 0⟩,
   ⟨0, 2, 1, some 1, some 105, 0⟩, ⟨0, 1, 3, some 1, some 1, 0⟩,
   ⟨0, 3, 1, some 0, some 0, 0⟩]
  ++ List.replicate 24 ⟨0, 2, 3, some 0, some 0, 0⟩
  ++ List.replicate 24 ⟨0, 3, 2, some 0, some 0, 0⟩

set_option maxRecDepth 4000 in
theorem c7_env :
    fitFixturesOf c7Fixtures 5 = c7Fixtures ∧ fitTeams c7Fixtures 5 = {1, 2, 3} := by
  constructor <;> decide

theorem c7_weight_one (f : FitFixture) (hf : f.daysAgo = 0) :
    timeWeight defaultModel f = 1 := by
  unfold timeWeight
  rw [hf]
  norm_num

theorem c7_totals :
    totalWeightOf defaultModel c7Fixtures = 53 ∧
    weightedHomeGoals defaultModel c7Fixtures = 106 ∧
    weightedAwayGoals defaultModel c7Fixtures = 106 := by
  refine ⟨?_, ?_, ?_⟩ <;>
  · norm_num [totalWeightOf, weightedHomeGoals, weightedAwayGoals, c7Fixtures,
      timeWeight, defaultModel, homeGoals, awayGoals, List.map_append,
      List.sum_append, List.map_replicate, List.sum_replicate]

theorem c7_avgs :
    fitAvgGoals defaultModel c7Fixtures 5 = 2 ∧
    fitHomeAdv defaultModel c7Fixtures 5 = 0 := by
  obtain ⟨hfs, -⟩ := c7_env
  obtain ⟨hW, hH, hA⟩ := c7_totals
  have hAvgH : fitAvgHome defaultModel c7Fixtures 5 = 2 := by
    unfold fitAvgHome
    rw [hfs, hH, hW]
    norm_num
  have hAvgA : fitAvgAway defaultModel c7Fixtures 5 = 2 := by
    unfold fitAvgAway
    rw [hfs, hA, hW]
    norm_num
  constructor
  · unfold fitAvgGoals
    rw [hAvgH, hAvgA]
    norm_num
  · unfold fitHomeAdv
    rw [hAvgH, hAvgA]
    norm_num

theorem c7_goalsScored :
    goalsScoredOf defaultModel c7Fixtures 1 = 210 ∧
    goalsScoredOf defaultModel c7Fixtures 2 = 1 ∧
    goalsScoredOf defaultModel c7Fixtures 3 = 1 := by
  refine ⟨?_, ?_, ?_⟩ <;>
  · norm_num [goalsScoredOf, c7Fixtures, timeWeight, defaultModel, homeGoals,
      awayGoals, List.map_append, List.sum_append, List.map_replicate,
      List.sum_replicate]

theorem c7_expectedScored :
    expectedScoredOf defaultModel c7Fixtures 2 0 (fun _ => 0) (fun _ => 0) 1 = 10 ∧
    expectedScoredOf defaultModel c7Fixtures 2 0 (fun _ => 0) (fun _ => 0) 2 = 102 ∧
    expectedScoredOf defaultModel c7Fixtures 2 0 (fun _ => 0) (fun _ => 0) 3 = 100 := by
  refine ⟨?_, ?_, ?_⟩ <;>
  · norm_num [expectedScoredOf, expHomeOf, expAwayOf, c7Fixtures, timeWeight,
      defaultModel, List.map_append, List.sum_append, List.map_replicate,
      List.sum_replicate]

theorem c7_teamWeights :
    teamWeightOf defaultModel c7Fixtures 1 = 5 ∧
    teamWeightOf defaultModel c7Fixtures 2 = 51 ∧
    teamWeightOf defaultModel c7Fixtures 3 = 50 := by
  refine ⟨?_, ?_, ?_⟩ <;>
  · norm_num [teamWeightOf, c7Fixtures, timeWeight, defaultModel,
      List.map_append, List.sum_append, List.map_replicate, List.sum_replicate]

theorem c7_updated :
    updatedAttack defaultModel c7Fixtures 2 0 (fun _ => 0) (fun _ => 0) 1 = 3/2 ∧
    updatedAttack defaultModel c7Fixtures 2 0 (fun _ => 0) (fun _ => 0) 2 = -(3/2) ∧
    updatedAttack defaultModel c7Fixtures 2 0 (fun _ => 0) (fun _ => 0) 3 = -(3/2) := by
  obtain ⟨hGS1, hGS2, hGS3⟩ := c7_goalsScored
  obtain ⟨hES1, hES2, hES3⟩ := c7_expectedScored
  obtain ⟨hTW1, hTW2, hTW3⟩ := c7_teamWeights
  have hlog21 : (3:ℝ) ≤ Real.log 21 := by
    rw [Real.le_log_iff_exp_le (by norm_num)]
    exact le_of_lt exp_three_lt
  have hlog102 : (3:ℝ) ≤ Real.log 102 := by
    rw [Real.le_log_iff_exp_le (by norm_num)]
    linarith [exp_three_lt]
  have hlog100 : (3:ℝ) ≤ Real.log 100 := by
    rw [Real.le_log_iff_exp_le (by norm_num)]
    linarith [exp_three_lt]
  refine ⟨?_, ?_, ?_⟩
  · unfold updatedAttack
    rw [hTW1, hGS1, hES1,
      if_pos (by norm_num : (0:ℝ) < 5), if_pos (by norm_num : (0:ℝ) < 10)]
    have h210 : (210:ℝ)/10 = 21 := by norm_num
    rw [h210]
    apply clipAD_of_ge
    simp only []
    linarith
  · unfold updatedAttack
    rw [hTW2, hGS2, hES2,
      if_pos (by norm_num : (0:ℝ) < 51), if_pos (by norm_num : (0:ℝ) < 102)]
    apply clipAD_of_le
    have hinv : Real.log ((1:ℝ)/102) = -Real.log 102 := by
      rw [one_div, Real.log_inv]
    simp only [hinv]
    linarith
  · unfold updatedAttack
    rw [hTW3, hGS3, hES3,
      if_pos (by norm_num : (0:ℝ) < 50), if_pos (by norm_num : (0:ℝ) < 100)]
    apply clipAD_of_le
    have hinv : Real.log ((1:ℝ)/100) = -Real.log 100 := by
      rw [one_div, Real.log_inv]
    simp only [hinv]
    linarith

theorem c7_mean :
    fitMeanAttack defaultModel c7Fixtures 5 (fun _ => 0) (fun _ => 0) = -(1/2) := by
  unfold fitMeanAttack
  simp only [c7_env.1, c7_env.2, c7_avgs.1, c7_avgs.2]
  rw [show ({1, 2, 3} : Finset ℤ) = insert 1 (insert 2 {3}) from rfl,
    Finset.sum_insert (by decide), Finset.sum_insert (by decide),
    Finset.sum_singleton]
  rw [c7_updated.1, c7_updated.2.1, c7_updated.2.2]
  have hcard : (({1, 2, 3} : Finset ℤ)).card = 3 := by decide
  rw [hcard]
  norm_num

/-- **C7, counterexample.**  On the 53-fixture input `c7Fixtures`
(`min_matches = 5`, three fitted teams), the first fitting iteration clips
the attacks to `(+1.5, -1.5, -1.5)` and then re-centers them to mean 0,
leaving team 1's attack at `+2.0` — outside `[-1.5, 1.5]` — so the claimed
invariant (mean zero **and** every value within `[-1.5, 1.5]`) fails after
this iteration. -/
theorem C7_counterexample :
    (1 : ℤ) ∈ fitTeams c7Fixtures 5 ∧
    (fitIterate defaultModel c7Fixtures 5 1).1 1 = 2 ∧
    ¬((fitIterate defaultModel c7Fixtures 5 1).1 1 ≤ 3/2) := by
  have h1T : (1:ℤ) ∈ fitTeams c7Fixtures 5 := by
    rw [c7_env.2]
    decide
  have hval : (fitIterate defaultModel c7Fixtures 5 1).1 1 = 2 := by
    unfold fitIterate
    rw [Function.iterate_one]
    unfold fitStep
    dsimp only
    rw [if_pos h1T]
    simp only [c7_env.1, c7_avgs.1, c7_avgs.2]
    rw [c7_updated.1, c7_mean]
    norm_num
  exact ⟨h1T, hval, by rw [hval]; norm_num⟩

/-! ### Rational reduction of the `rho = 0` matrix

With `rho = 0` the τ factor is identically 1 and the `exp(-λ)·exp(-μ)`
factors of the Poisson mass cancel between the 1X2 numerators and the
normalization total, leaving ratios of the truncated exponential-series
polynomials below.  This supports the numeric evaluation of `predict_match`
at the C5 counterexample inputs.
-/

theorem tau_rho_zero (i j : ℕ) (lam mu : ℝ) : tau i j lam mu 0 = 1 := by
  unfold tau
  split_ifs <;> ring

/-- `∑_{k ≤ 10} x^k / k!`. -/
noncomputable def tpoly (x : ℝ) : ℝ :=
  ∑ k ∈ Finset.range 11, x ^ k / (Nat.factorial k : ℝ)

/-- `∑_{j < i ≤ 10} x^i y^j / (i! j!)` — the home-win numerator. -/
noncomputable def hpoly (x y : ℝ) : ℝ :=
  ∑ i ∈ Finset.range 11, ∑ j ∈ Finset.range 11,
    if j < i then x ^ i * y ^ j / ((Nat.factorial i : ℝ) * (Nat.factorial j : ℝ)) else 0

/-- `∑_{i < j ≤ 10} x^i y^j / (i! j!)` — the away-win numerator. -/
noncomputable def apoly (x y : ℝ) : ℝ :=
  ∑ i ∈ Finset.range 11, ∑ j ∈ Finset.range 11,
    if i < j then x ^ i * y ^ j / ((Nat.factorial i : ℝ) * (Nat.factorial j : ℝ)) else 0

theorem pois_sum_eq (x : ℝ) :
    ∑ k ∈ Finset.range 11, pois x k = Real.exp (-x) * tpoly x := by
  unfold pois tpoly
  rw [Finset.mul_sum]
  exact Finset.sum_congr rfl (fun k _ => (mul_div_assoc _ _ _))

theorem rawHomeWin_poly (m : Model) (homeId awayId : ℤ) (effHa : ℝ)
    (hrho : m.rho = 0) (hmax : m.maxGoals = 10) :
    rawHomeWin m homeId awayId effHa
      = hpoly (lambdaHomeOf m effHa homeId awayId) (muAwayOf m homeId awayId)
        / (tpoly (lambdaHomeOf m effHa homeId awayId)
          * tpoly (muAwayOf m homeId awayId)) := by
  have hC : Real.exp (-(lambdaHomeOf m effHa homeId awayId))
      * Real.exp (-(muAwayOf m homeId awayId)) ≠ 0 :=
    mul_ne_zero (Real.exp_ne_zero _) (Real.exp_ne_zero _)
  unfold rawHomeWin predictScoreProbsAdjusted
  rw [hmax]
  have hnum : ∀ i j : ℕ,
      (if j < i then rawScoreProb m (lambdaHomeOf m effHa homeId awayId)
          (muAwayOf m homeId awayId) i j
        / rawScoreTotal m (lambdaHomeOf m effHa homeId awayId)
          (muAwayOf m homeId awayId) else 0)
      = (if j < i then rawScoreProb m (lambdaHomeOf m effHa homeId awayId)
          (muAwayOf m homeId awayId) i j else 0)
        / rawScoreTotal m (lambdaHomeOf m effHa homeId awayId)
          (muAwayOf m homeId awayId) := by
    intro i j
    split_ifs
    · rfl
    · rw [zero_div]
  simp_rw [hnum, ← Finset.sum_div]
  have hnum2 : ∑ i ∈ Finset.range 11, ∑ j ∈ Finset.range 11,
      (if j < i then rawScoreProb m (lambdaHomeOf m effHa homeId awayId)
        (muAwayOf m homeId awayId) i j else 0)
      = (Real.exp (-(lambdaHomeOf m effHa homeId awayId))
          * Real.exp (-(muAwayOf m homeId awayId)))
        * hpoly (lambdaHomeOf m effHa homeId awayId) (muAwayOf m homeId awayId) := by
    unfold hpoly
    rw [Finset.mul_sum]
    refine Finset.sum_congr rfl (fun i _ => ?_)
    rw [Finset.mul_sum]
    refine Finset.sum_congr rfl (fun j _ => ?_)
    split_ifs
    · unfold rawScoreProb pois
      rw [hrho, tau_rho_zero]
      ring
    · rw [mul_zero]
  have hden : rawScoreTotal m (lambdaHomeOf m effHa homeId awayId)
      (muAwayOf m homeId awayId)
      = (Real.exp (-(lambdaHomeOf m effHa homeId awayId))
          * Real.exp (-(muAwayOf m homeId awayId)))
        * (tpoly (lambdaHomeOf m effHa homeId awayId)
          * tpoly (muAwayOf m homeId awayId)) := by
    rw [rawScoreTotal_eq_prod m _ _ (by omega), hmax, pois_sum_eq, pois_sum_eq]
    ring
  rw [hnum2, hden, mul_div_mul_left _ _ hC]

theorem rawAwayWin_poly (m : Model) (homeId awayId : ℤ) (effHa : ℝ)
    (hrho : m.rho = 0) (hmax : m.maxGoals = 10) :
    rawAwayWin m homeId awayId effHa
      = apoly (lambdaHomeOf m effHa homeId awayId) (muAwayOf m homeId awayId)
        / (tpoly (lambdaHomeOf m effHa homeId awayId)
          * tpoly (muAwayOf m homeId awayId)) := by
  have hC : Real.exp (-(lambdaHomeOf m effHa homeId awayId))
      * Real.exp (-(muAwayOf m homeId awayId)) ≠ 0 :=
    mul_ne_zero (Real.exp_ne_zero _) (Real.exp_ne_zero _)
  unfold rawAwayWin predictScoreProbsAdjusted
  rw [hmax]
  have hnum : ∀ i j : ℕ,
      (if i < j then rawScoreProb m (lambdaHomeOf m effHa homeId awayId)
          (muAwayOf m homeId awayId) i j
        / rawScoreTotal m (lambdaHomeOf m effHa homeId awayId)
          (muAwayOf m homeId awayId) else 0)
      = (if i < j then rawScoreProb m (lambdaHomeOf m effHa homeId awayId)
          (muAwayOf m homeId awayId) i j else 0)
        / rawScoreTotal m (lambdaHomeOf m effHa homeId awayId)
          (muAwayOf m homeId awayId) := by
    intro i j
    split_ifs
    · rfl
    · rw [zero_div]
  simp_rw [hnum, ← Finset.sum_div]
  have hnum2 : ∑ i ∈ Finset.range 11, ∑ j ∈ Finset.range 11,
      (if i < j then rawScoreProb m (lambdaHomeOf m effHa homeId awayId)
        (muAwayOf m homeId awayId) i j else 0)
      = (Real.exp (-(lambdaHomeOf m effHa homeId awayId))
          * Real.exp (-(muAwayOf m homeId awayId)))
        * apoly (lambdaHomeOf m effHa homeId awayId) (muAwayOf m homeId awayId) := by
    unfold apoly
    rw [Finset.mul_sum]
    refine Finset.sum_congr rfl (fun i _ => ?_)
    rw [Finset.mul_sum]
    refine Finset.sum_congr rfl (fun j _ => ?_)
    split_ifs
    · unfold rawScoreProb pois
      rw [hrho, tau_rho_zero]
      ring
    · rw [mul_zero]
  have hden : rawScoreTotal m (lambdaHomeOf m effHa homeId awayId)
      (muAwayOf m homeId awayId)
      = (Real.exp (-(lambdaHomeOf m effHa homeId awayId))
          * Real.exp (-(muAwayOf m homeId awayId)))
        * (tpoly (lambdaHomeOf m effHa homeId awayId)
          * tpoly (muAwayOf m homeId awayId)) := by
    rw [rawScoreTotal_eq_prod m _ _ (by omega), hmax, pois_sum_eq, pois_sum_eq]
    ring
  rw [hnum2, hden, mul_div_mul_left _ _ hC]

theorem predictAdjusted_sum_one (m : Model) (homeId awayId : ℤ) (effHa : ℝ)
    (hN : 1 ≤ m.maxGoals) :
    ∑ i ∈ Finset.range (m.maxGoals + 1), ∑ j ∈ Finset.range (m.maxGoals + 1),
      predictScoreProbsAdjusted m homeId awayId effHa i j = 1 := by
  unfold predictScoreProbsAdjusted
  have hpos : 0 < rawScoreTotal m (lambdaHomeOf m effHa homeId awayId)
      (muAwayOf m homeId awayId) :=
    rawScoreTotal_pos m (clip_pos _) (clip_pos _) hN
  simp_rw [← Finset.sum_div]
  exact div_self (ne_of_gt hpos)

theorem raw1X2_partition (m : Model) (homeId awayId : ℤ) (effHa : ℝ)
    (hN : 1 ≤ m.maxGoals) :
    rawHomeWin m homeId awayId effHa + rawDraw m homeId awayId effHa
      + rawAwayWin m homeId awayId effHa = 1 := by
  have hsum := predictAdjusted_sum_one m homeId awayId effHa hN
  unfold rawHomeWin rawDraw rawAwayWin
  rw [← hsum, ← Finset.sum_add_distrib, ← Finset.sum_add_distrib]
  refine Finset.sum_congr rfl (fun i _ => ?_)
  rw [← Finset.sum_add_distrib, ← Finset.sum_add_distrib]
  refine Finset.sum_congr rfl (fun j _ => ?_)
  rcases lt_trichotomy j i with h | h | h
  · rw [if_pos h, if_neg (by omega), if_neg (by omega)]
    ring
  · rw [if_neg (by omega), if_pos (by omega), if_neg (by omega)]
    ring
  · rw [if_neg (by omega), if_neg (by omega), if_pos h]
    ring

/-- The cup adjustments conserve total probability mass. -/
theorem finalTriple_sum (m : Model) (h d a : ℝ) (c : Bool) :
    finalHome m h a c + finalDraw m d c + finalAway m h a c = h + d + a := by
  unfold finalHome finalDraw finalAway cupBoostHome cupBoostAway
  cases c
  · simp
  · simp only [if_true]
    split_ifs <;> ring

theorem tpoly_mono {x y : ℝ} (hx : 0 ≤ x) (hxy : x ≤ y) : tpoly x ≤ tpoly y := by
  unfold tpoly
  refine Finset.sum_le_sum (fun k _ => ?_)
  have hfac : (0:ℝ) < (Nat.factorial k : ℝ) := by exact_mod_cast Nat.factorial_pos k
  exact (div_le_div_iff_of_pos_right hfac).mpr (pow_le_pow_left₀ hx hxy k)

theorem tpoly_pos {x : ℝ} (hx : 0 ≤ x) : 0 < tpoly x := by
  unfold tpoly
  refine Finset.sum_pos' (fun k _ => ?_) ⟨0, by norm_num⟩
  have hfac : (0:ℝ) < (Nat.factorial k : ℝ) := by exact_mod_cast Nat.factorial_pos k
  positivity

theorem hpoly_mono_left {x x' y : ℝ} (hx : 0 ≤ x) (hxx : x ≤ x') (hy : 0 ≤ y) :
    hpoly x y ≤ hpoly x' y := by
  unfold hpoly
  refine Finset.sum_le_sum (fun i _ => Finset.sum_le_sum (fun j _ => ?_))
  split_ifs
  · have hfac : (0:ℝ) < (Nat.factorial i : ℝ) * (Nat.factorial j : ℝ) := by
      have h1 : (0:ℝ) < (Nat.factorial i : ℝ) := by exact_mod_cast Nat.factorial_pos i
      have h2 : (0:ℝ) < (Nat.factorial j : ℝ) := by exact_mod_cast Nat.factorial_pos j
      positivity
    refine (div_le_div_iff_of_pos_right hfac).mpr ?_
    exact mul_le_mul_of_nonneg_right (pow_le_pow_left₀ hx hxx i) (by positivity)
  · exact le_refl _

theorem apoly_mono_left {x x' y : ℝ} (hx : 0 ≤ x) (hxx : x ≤ x') (hy : 0 ≤ y) :
    apoly x y ≤ apoly x' y := by
  unfold apoly
  refine Finset.sum_le_sum (fun i _ => Finset.sum_le_sum (fun j _ => ?_))
  split_ifs
  · have hfac : (0:ℝ) < (Nat.factorial i : ℝ) * (Nat.factorial j : ℝ) := by
      have h1 : (0:ℝ) < (Nat.factorial i : ℝ) := by exact_mod_cast Nat.factorial_pos i
      have h2 : (0:ℝ) < (Nat.factorial j : ℝ) := by exact_mod_cast Nat.factorial_pos j
      positivity
    refine (div_le_div_iff_of_pos_right hfac).mpr ?_
    exact mul_le_mul_of_nonneg_right (pow_le_pow_left₀ hx hxx i) (by positivity)
  · exact le_refl _

theorem hpoly_nonneg {x y : ℝ} (hx : 0 ≤ x) (hy : 0 ≤ y) : 0 ≤ hpoly x y := by
  unfold hpoly
  refine Finset.sum_nonneg (fun i _ => Finset.sum_nonneg (fun j _ => ?_))
  split_ifs
  · have h1 : (0:ℝ) < (Nat.factorial i : ℝ) := by exact_mod_cast Nat.factorial_pos i
    have h2 : (0:ℝ) < (Nat.factorial j : ℝ) := by exact_mod_cast Nat.factorial_pos j
    positivity
  · exact le_refl _

theorem apoly_nonneg {x y : ℝ} (hx : 0 ≤ x) (hy : 0 ≤ y) : 0 ≤ apoly x y := by
  unfold apoly
  refine Finset.sum_nonneg (fun i _ => Finset.sum_nonneg (fun j _ => ?_))
  split_ifs
  · have h1 : (0:ℝ) < (Nat.factorial i : ℝ) := by exact_mod_cast Nat.factorial_pos i
    have h2 : (0:ℝ) < (Nat.factorial j : ℝ) := by exact_mod_cast Nat.factorial_pos j
    positivity
  · exact le_refl _

/-- At `x = y` the home-win and away-win masses coincide (matrix symmetry). -/
theorem hpoly_eq_apoly_diag (x : ℝ) : hpoly x x = apoly x x := by
  unfold hpoly apoly
  rw [Finset.sum_comm]
  refine Finset.sum_congr rfl (fun i _ => Finset.sum_congr rfl (fun j _ => ?_))
  split_ifs
  · ring
  · rfl

theorem exp_three_gt : (10:ℝ) < Real.exp 3 := by
  have h1 : (2.7182818283:ℝ) < Real.exp 1 := Real.exp_one_gt_d9
  have h3 : Real.exp 3 = Real.exp 1 ^ 3 := by
    rw [← Real.exp_nat_mul]
    norm_num
  rw [h3]
  calc (10:ℝ) < 2.7182818283 ^ 3 := by norm_num
    _ < Real.exp 1 ^ 3 := pow_lt_pow_left₀ h1 (by norm_num) (by norm_num)

theorem exp94_gt : (94877/10000 : ℝ) < Real.exp (9/4) := by
  have h4 : Real.exp (9/4) ^ 4 = Real.exp 9 := by
    rw [← Real.exp_nat_mul]
    norm_num
  have h9 : Real.exp 9 = Real.exp 1 ^ 9 := by
    rw [← Real.exp_nat_mul]
    norm_num
  have hlo : (2.7182818283:ℝ) ^ 9 < Real.exp 9 := by
    rw [h9]
    exact pow_lt_pow_left₀ Real.exp_one_gt_d9 (by norm_num) (by norm_num)
  have hcmp : ((94877:ℝ)/10000) ^ 4 < Real.exp (9/4) ^ 4 := by
    rw [h4]
    calc ((94877:ℝ)/10000) ^ 4 ≤ (2.7182818283:ℝ) ^ 9 := by norm_num
      _ < Real.exp 9 := hlo
  exact lt_of_pow_lt_pow_left₀ 4 (le_of_lt (Real.exp_pos _)) hcmp

theorem exp94_lt : Real.exp (9/4) < 94878/10000 := by
  have h4 : Real.exp (9/4) ^ 4 = Real.exp 9 := by
    rw [← Real.exp_nat_mul]
    norm_num
  have h9 : Real.exp 9 = Real.exp 1 ^ 9 := by
    rw [← Real.exp_nat_mul]
    norm_num
  have hhi : Real.exp 9 < (2.7182818286:ℝ) ^ 9 := by
    rw [h9]
    exact pow_lt_pow_left₀ Real.exp_one_lt_d9 (le_of_lt (Real.exp_pos _)) (by norm_num)
  have hcmp : Real.exp (9/4) ^ 4 < ((94878:ℝ)/10000) ^ 4 := by
    rw [h4]
    calc Real.exp 9 < (2.7182818286:ℝ) ^ 9 := hhi
      _ ≤ ((94878:ℝ)/10000) ^ 4 := by norm_num
  exact lt_of_pow_lt_pow_left₀ 4 (by norm_num) hcmp

/-- Bounds for `λ_B = exp(-9/4)` used in the C5 counterexample. -/
theorem expNeg94_bounds :
    (10000/94878 : ℝ) < Real.exp (-(9/4)) ∧ Real.exp (-(9/4)) < 10000/94877 := by
  rw [Real.exp_neg]
  constructor
  · rw [show (10000/94878 : ℝ) = (94878/10000 : ℝ)⁻¹ by norm_num]
    exact inv_strictAnti₀ (Real.exp_pos _) exp94_lt
  · rw [show (10000/94877 : ℝ) = (94877/10000 : ℝ)⁻¹ by norm_num]
    exact inv_strictAnti₀ (by norm_num) exp94_gt

/-- The C5 counterexample model: `rho = 0`, `home_advantage = 0`, v2.0 cup
constants at their defaults, team 2's attack at `-3`, all defenses `0`,
and the home team's (team 1's) attack the parameter `a`. -/
noncomputable def c5Model (a : ℝ) : Model :=
  ⟨0, 0, 65/10000, 10, 12/100, 8/100, 35/100,
   fun t => if t = 1 then a else if t = 2 then -3 else 0,
   fun _ => 0⟩

theorem exp_neg_three_le : Real.exp (-3:ℝ) ≤ 1/10 := by
  rw [Real.exp_neg]
  rw [show (1/10 : ℝ) = (10:ℝ)⁻¹ by norm_num]
  exact le_of_lt (inv_strictAnti₀ (by norm_num) exp_three_gt)

theorem c5_mu (a : ℝ) : muAwayOf (c5Model a) 1 2 = 1/10 := by
  unfold muAwayOf c5Model clip
  norm_num
  exact exp_neg_three_le

theorem c5_lamA : lambdaHomeOf (c5Model (-3)) 0 1 2 = 1/10 := by
  unfold lambdaHomeOf c5Model clip
  norm_num
  exact exp_neg_three_le

theorem c5_lamB : lambdaHomeOf (c5Model (-(9/4))) 0 1 2 = Real.exp (-(9/4)) := by
  unfold lambdaHomeOf c5Model clip
  norm_num
  have hub : Real.exp (-(9/4) : ℝ) ≤ 5 := by
    have := expNeg94_bounds.2
    linarith
  have hlb : (1/10 : ℝ) ≤ Real.exp (-(9/4) : ℝ) := by
    have := expNeg94_bounds.1
    linarith
  rw [min_eq_left hub, max_eq_right hlb]

theorem c5_notEuropean : isEuropeanLeague (some 4) = false := by decide

theorem c5_isCup : isCupCompetition (some 4) = true := by decide

theorem c5_effHa (a : ℝ) : effectiveHomeAdvantage (c5Model a) (some 4) = 0 := by
  unfold effectiveHomeAdvantage
  rw [c5_notEuropean]
  simp [c5Model]

/-- League 4 is a non-European cup: the 1X2 triple sums to 1, so the
home-win field of `predict_match` is the rounded cup-adjusted home mass. -/
theorem c5_homeWin (a : ℝ) :
    (predictMatch (c5Model a) 1 2 (some 4)).homeWin
      = round4 (finalHome (c5Model a) (rawHomeWin (c5Model a) 1 2 0)
          (rawAwayWin (c5Model a) 1 2 0) true) := by
  have hsum : finalHome (c5Model a) (rawHomeWin (c5Model a) 1 2 0)
        (rawAwayWin (c5Model a) 1 2 0) true
      + finalDraw (c5Model a) (rawDraw (c5Model a) 1 2 0) true
      + finalAway (c5Model a) (rawHomeWin (c5Model a) 1 2 0)
        (rawAwayWin (c5Model a) 1 2 0) true = 1 := by
    rw [finalTriple_sum]
    exact raw1X2_partition (c5Model a) 1 2 0 (by norm_num [c5Model])
  simp only [predictMatch, c5_effHa, c5_isCup, hsum, div_one]

theorem c5_H (a : ℝ) :
    rawHomeWin (c5Model a) 1 2 0
      = hpoly (lambdaHomeOf (c5Model a) 0 1 2) (1/10)
        / (tpoly (lambdaHomeOf (c5Model a) 0 1 2) * tpoly (1/10)) := by
  rw [rawHomeWin_poly (c5Model a) 1 2 0 rfl rfl, c5_mu]

theorem c5_A (a : ℝ) :
    rawAwayWin (c5Model a) 1 2 0
      = apoly (lambdaHomeOf (c5Model a) 0 1 2) (1/10)
        / (tpoly (lambdaHomeOf (c5Model a) 0 1 2) * tpoly (1/10)) := by
  rw [rawAwayWin_poly (c5Model a) 1 2 0 rfl rfl, c5_mu]

/-- With equal home and away masses the draw boost is taken 40% from the
home side and the upset clause never fires. -/
theorem c5_finalHome_sym (m : Model) (h : ℝ) (hd : m.drawBoostCups = 12/100) :
    finalHome m h h true = h - 48/1000 := by
  have hbh : cupBoostHome m h h = h - 48/1000 := by
    unfold cupBoostHome
    rw [if_neg (lt_irrefl h), hd]
    ring
  have hba : cupBoostAway m h h = h - 72/1000 := by
    unfold cupBoostAway
    rw [if_neg (lt_irrefl h), hd]
    ring
  unfold finalHome
  rw [if_pos rfl, hba, hbh, if_neg (by intro hc; linarith)]

/-- When the home side is a slight favourite (gap below 0.174 after the
draw boost bookkeeping) it loses 60% of the draw boost and the upset
clause still does not fire. -/
theorem c5_finalHome_fav (m : Model) (h a : ℝ) (hd : m.drawBoostCups = 12/100)
    (hlt : a < h) (hsmall : h - a < 174/1000) :
    finalHome m h a true = h - 72/1000 := by
  have hbh : cupBoostHome m h a = h - 72/1000 := by
    unfold cupBoostHome
    rw [if_pos hlt, hd]
    ring
  have hba : cupBoostAway m h a = a - 48/1000 := by
    unfold cupBoostAway
    rw [if_pos hlt, hd]
    ring
  unfold finalHome
  rw [if_pos rfl, hba, hbh, if_neg (by intro hc; linarith)]

theorem c5_N1 : apoly (10000/94877 : ℝ) (1/10) < hpoly (10000/94878 : ℝ) (1/10) := by
  unfold apoly hpoly
  simp only [Finset.sum_range_succ, Finset.sum_range_zero]
  norm_num [Nat.factorial]

theorem c5_N2 : hpoly (10000/94877 : ℝ) (1/10)
    / (tpoly (10000/94878) * tpoly (1/10)) < 174/1000 := by
  unfold hpoly tpoly
  simp only [Finset.sum_range_succ, Finset.sum_range_zero]
  norm_num [Nat.factorial]

theorem c5_N3 : hpoly (10000/94877 : ℝ) (1/10)
      / (tpoly (10000/94878) * tpoly (1/10)) - 72/1000 + 1/20000
    < hpoly (1/10 : ℝ) (1/10) / (tpoly (1/10) * tpoly (1/10)) - 48/1000 - 1/20000 := by
  unfold hpoly tpoly
  simp only [Finset.sum_range_succ, Finset.sum_range_zero]
  norm_num [Nat.factorial]

/-- C5: raising the home team's attack parameter from -3 to -9/4 (all other
parameters, the opponent, and the league — the non-European cup 4 — held
fixed) strictly DECREASES the home-win probability reported by
`predict_match`: the cup draw boost is taken 60/40 from the favourite, and
the attack raise flips which side is the favourite, costing the home side
more than the raw home-win mass gains.  So the win-probability half of the
monotonicity claim is false. -/
theorem C5_counterexample :
    (c5Model (-3)).attackParams 1 < (c5Model (-(9/4))).attackParams 1
    ∧ (predictMatch (c5Model (-(9/4))) 1 2 (some 4)).homeWin
      < (predictMatch (c5Model (-3)) 1 2 (some 4)).homeWin := by
  constructor
  · norm_num [c5Model]
  · have hupos : (0:ℝ) < Real.exp (-(9/4)) := Real.exp_pos _
    have hulo := expNeg94_bounds.1
    have huhi := expNeg94_bounds.2
    have htpos : (0:ℝ) < tpoly (Real.exp (-(9/4))) * tpoly (1/10) :=
      mul_pos (tpoly_pos (le_of_lt hupos)) (tpoly_pos (by norm_num))
    have hHB : rawHomeWin (c5Model (-(9/4))) 1 2 0
        = hpoly (Real.exp (-(9/4))) (1/10)
          / (tpoly (Real.exp (-(9/4))) * tpoly (1/10)) := by
      rw [c5_H, c5_lamB]
    have hAB : rawAwayWin (c5Model (-(9/4))) 1 2 0
        = apoly (Real.exp (-(9/4))) (1/10)
          / (tpoly (Real.exp (-(9/4))) * tpoly (1/10)) := by
      rw [c5_A, c5_lamB]
    have hnumlt : apoly (Real.exp (-(9/4))) (1/10)
        < hpoly (Real.exp (-(9/4))) (1/10) :=
      lt_of_le_of_lt
        (apoly_mono_left (le_of_lt hupos) (le_of_lt huhi) (by norm_num))
        (lt_of_lt_of_le c5_N1
          (hpoly_mono_left (by norm_num) (le_of_lt hulo) (by norm_num)))
    have hABlt : rawAwayWin (c5Model (-(9/4))) 1 2 0
        < rawHomeWin (c5Model (-(9/4))) 1 2 0 := by
      rw [hHB, hAB]
      exact div_lt_div_of_pos_right hnumlt htpos
    have hHub : rawHomeWin (c5Model (-(9/4))) 1 2 0
        ≤ hpoly (10000/94877 : ℝ) (1/10) / (tpoly (10000/94878) * tpoly (1/10)) := by
      rw [hHB]
      apply div_le_div₀ (hpoly_nonneg (by norm_num) (by norm_num))
        (hpoly_mono_left (le_of_lt hupos) (le_of_lt huhi) (by norm_num))
        (mul_pos (tpoly_pos (by norm_num)) (tpoly_pos (by norm_num)))
        (mul_le_mul_of_nonneg_right (tpoly_mono (by norm_num) (le_of_lt hulo))
          (le_of_lt (tpoly_pos (by norm_num))))
    have hABnn : 0 ≤ rawAwayWin (c5Model (-(9/4))) 1 2 0 := by
      rw [hAB]
      exact div_nonneg (apoly_nonneg (le_of_lt hupos) (by norm_num)) (le_of_lt htpos)
    have hsmallB : rawHomeWin (c5Model (-(9/4))) 1 2 0
        - rawAwayWin (c5Model (-(9/4))) 1 2 0 < 174/1000 := by
      have := c5_N2
      linarith
    have hfB : finalHome (c5Model (-(9/4))) (rawHomeWin (c5Model (-(9/4))) 1 2 0)
        (rawAwayWin (c5Model (-(9/4))) 1 2 0) true
        = rawHomeWin (c5Model (-(9/4))) 1 2 0 - 72/1000 :=
      c5_finalHome_fav _ _ _ rfl hABlt hsmallB
    have hHA : rawHomeWin (c5Model (-3)) 1 2 0
        = hpoly (1/10 : ℝ) (1/10) / (tpoly (1/10) * tpoly (1/10)) := by
      rw [c5_H, c5_lamA]
    have hAA : rawAwayWin (c5Model (-3)) 1 2 0
        = rawHomeWin (c5Model (-3)) 1 2 0 := by
      rw [c5_H, c5_A, c5_lamA, ← hpoly_eq_apoly_diag]
    have hfA : finalHome (c5Model (-3)) (rawHomeWin (c5Model (-3)) 1 2 0)
        (rawAwayWin (c5Model (-3)) 1 2 0) true
        = rawHomeWin (c5Model (-3)) 1 2 0 - 48/1000 := by
      rw [hAA]
      exact c5_finalHome_sym _ _ rfl
    rw [c5_homeWin, c5_homeWin, hfA, hfB]
    have hb1 : round4 (rawHomeWin (c5Model (-(9/4))) 1 2 0 - 72/1000)
        ≤ rawHomeWin (c5Model (-(9/4))) 1 2 0 - 72/1000 + 1/20000 := by
      have := round4_sub_le (rawHomeWin (c5Model (-(9/4))) 1 2 0 - 72/1000)
      linarith
    have hb2 : rawHomeWin (c5Model (-3)) 1 2 0 - 48/1000 - 1/20000
        ≤ round4 (rawHomeWin (c5Model (-3)) 1 2 0 - 48/1000) := by
      have := sub_round4_le (rawHomeWin (c5Model (-3)) 1 2 0 - 48/1000)
      linarith
    have hchain := c5_N3
    linarith

/-- A model identical to `m` except that team `t`'s attack parameter is
raised by `d`. -/
noncomputable def bumpAttack (m : Model) (t : ℤ) (d : ℝ) : Model :=
  { m with attackParams := fun s => if s = t then m.attackParams s + d else m.attackParams s }

/-- C5 (amended): raising the home team's attack parameter (opponent and
all other parameters fixed) never decreases the home team's reported
expected goals.  The corresponding win-probability statement is refuted by
the cup-adjustment counterexample. -/
theorem C5_amended (m : Model) (homeId awayId : ℤ) (league : Option ℤ) (d : ℝ)
    (hd : 0 ≤ d) :
    (predictMatch m homeId awayId league).expectedGoalsHome
      ≤ (predictMatch (bumpAttack m homeId d) homeId awayId league).expectedGoalsHome := by
  simp only [predictMatch]
  apply round2_mono
  apply Real.exp_le_exp.mpr
  have hb : (bumpAttack m homeId d).attackParams homeId
      = m.attackParams homeId + d := by
    unfold bumpAttack
    simp
  have heff : effectiveHomeAdvantage (bumpAttack m homeId d) league
      = effectiveHomeAdvantage m league := rfl
  have hdef : (bumpAttack m homeId d).defenseParams awayId
      = m.defenseParams awayId := rfl
  rw [hb, heff, hdef]
  linarith

theorem C5_witness :
    (0:ℝ) ≤ 1
    ∧ (predictMatch defaultModel 1 2 none).expectedGoalsHome
      ≤ (predictMatch (bumpAttack defaultModel 1 1) 1 2 none).expectedGoalsHome :=
  ⟨by norm_num, C5_amended defaultModel 1 2 none 1 (by norm_num)⟩

end GalaxyParlay
